import Mathlib

/-!
Verification of the B+Tree index (`BPlusTree` in `b_plus_tree.cpp`) and the
concurrent Trie (`p0_trie.h`) of the dblab repository, against its
natural-language specification.

The embedding follows the source code.  Pages live in a store indexed by
page id (allocation appends at the end, mirroring the buffer pool handing
out fresh pages in order).  Machine `page_id_t` is modelled as `Nat` with
`Option` replacing the `INVALID_PAGE_ID` sentinel; keys and RIDs are `Int`
(the comparator is integer comparison, RIDs are built from the key by the
test harness `RID(k)`).

Page-accessor code (`KeyAt`, `SetKeyAt`, `IncreaseSize`, `Init`, ...) is not
part of the provided sources; it is modelled from the spec's data-model
section: a node is a header plus parallel arrays `K[0..size)`/`V[0..size)`,
slot 0 of an internal node's key array being an unused sentinel (stored as
0, the content of a freshly zeroed buffer-pool frame).  `IncreaseSize (+n)`
exposes `n` junk slots (modelled as 0, always overwritten before being read
on every executed path); `IncreaseSize (-n)` truncates.  `Init` of a leaf
page yields size 0; `Init` of an internal page yields size 1 (one sentinel
key slot and one child slot), which is forced by every call site in the
provided code (for example the new-root block writes `SetValueAt 0`,
`IncreaseSize 1`, `SetKeyAt 1`, `SetValueAt 1` and ends with a size-2 root).
`GetMinSize` is likewise modelled from the spec: `min_size = ceil(max_size/2)`.
-/

namespace DbLab

/-- A tree node page: a leaf holds parallel key/RID arrays and a forward
sibling pointer; an internal node holds parallel key/child arrays whose key
slot 0 is an unused sentinel. -/
inductive BPage where
  | leafP (keys : List Int) (vals : List Int) (next : Option Nat)
  | internalP (keys : List Int) (children : List Nat)
deriving Repr, DecidableEq

/-- The whole tree: the two size limits fixed at `open` time, the page store
(page id = list index; the buffer pool hands out ids in allocation order),
and the header page's `root_page_id_` (`none` = `INVALID_PAGE_ID`). -/
structure BTree where
  leafMax : Nat
  internalMax : Nat
  pages : List BPage
  root : Option Nat
deriving Repr, DecidableEq

/-- A freshly opened tree: the constructor writes `INVALID_PAGE_ID` into the
header page and allocates nothing else. -/
def BTree.openTree (lm im : Nat) : BTree := ⟨lm, im, [], none⟩

/-- Modelled from the spec: `min_size = ceil(max_size/2)` (§3); the
implementation of `GetMinSize` is not among the provided sources. -/
def minSize (maxSize : Nat) : Nat := (maxSize + 1) / 2

/-- Write a page back into the store (mutation through a write guard). -/
def BTree.setPage (t : BTree) (pid : Nat) (p : BPage) : BTree :=
  { t with pages := t.pages.set pid p }

/-- Descent step of every traversal loop in the source: scan `i = 1, ...,
size-1` and take child `i-1` at the first key with `key < K[i]`; fall
through to child `size-1`.  Implemented on the key list with slot 0
dropped. -/
def childIndexAux (k : Int) : List Int → Nat → Nat → Nat
  | [], _, size => size - 1
  | x :: xs, i, size => if k < x then i - 1 else childIndexAux k xs (i + 1) size

/-- Child slot chosen for `k` in an internal node with key array `keys`. -/
def childIndex (keys : List Int) (k : Int) : Nat :=
  childIndexAux k (keys.drop 1) 1 keys.length

/-- Root-to-leaf descent shared verbatim by `GetValue`, `Insert` and
`Remove`: returns the internal path as `(page id, child slot taken)` pairs
(the write set and position set of the mutators' `Context`) and the leaf's
page id.  Fuel bounds the loop; `none` models a traversal that never
reaches a leaf or follows a dangling page id. -/
def searchLeafAux (t : BTree) (k : Int) :
    Nat → List (Nat × Nat) → Nat → Option (List (Nat × Nat) × Nat)
  | _, _, 0 => none
  | pid, path, fuel + 1 =>
    match t.pages.get? pid with
    | some (.leafP _ _ _) => some (path, pid)
    | some (.internalP keys children) =>
      let i := childIndex keys k
      match children.get? i with
      | some c => searchLeafAux t k c (path ++ [(pid, i)]) fuel
      | none => none
    | none => none

/-- Descent from the root recorded in the header page. -/
def searchLeaf (t : BTree) (k : Int) (r : Nat) : Option (List (Nat × Nat) × Nat) :=
  searchLeafAux t k r [] (t.pages.length + 1)

/-- The leaf scan of `GetValue`: push the value of the first slot whose key
compares equal, then return; the result vector is empty iff the scan
failed. -/
def scanKV (k : Int) : List Int → List Int → List Int
  | k0 :: ks, v0 :: vs => if k = k0 then [v0] else scanKV k ks vs
  | _, _ => []

/-- `GetValue(key, result)`: the returned vector (`[v]` together with result
`true`, or `[]` with result `false`). -/
def getValue (t : BTree) (k : Int) : List Int :=
  match t.root with
  | none => []
  | some r =>
    match searchLeaf t k r with
    | some (_, pid) =>
      match t.pages.get? pid with
      | some (.leafP keys vals _) => scanKV k keys vals
      | _ => []
    | none => []

/-- The duplicate scan at the start of the leaf edit in `Insert`. -/
def hasKey (k : Int) : List Int → Bool
  | [] => false
  | k0 :: ks => if k = k0 then true else hasKey k ks

/-- Index at which the leaf insertion loop of `Insert` places a new key:
first slot whose key is not smaller than `k` (the loop `continue`s while
`key > K[i]`), or the end. -/
def leafInsertPos (keys : List Int) (k : Int) : Nat :=
  (keys.takeWhile (fun x => x < k)).length

/-- Index at which the internal insertion loop places a promoted separator:
scan starts at slot 1 and `continue`s while `insert_key > K[i]`. -/
def internalInsertPos (keys : List Int) (k : Int) : Nat :=
  1 + ((keys.drop 1).takeWhile (fun x => x < k)).length

/-- Insert an element at an index (the `IncreaseSize(1)` plus
backwards-shift idiom used by all three insertion loops). -/
def insAt (i : Nat) (a : α) : List α → List α
  | [] => [a]
  | x :: xs => match i with
    | 0 => a :: x :: xs
    | i + 1 => x :: insAt i a xs

/-!  Insertion engine (`BPlusTree::Insert`). -/

/-- The `ROOT_SPLIT` block: allocate a new internal root of size 2 whose
child 0 is the old root `r`, key 1 the promoted separator and child 1 the
freshly split-off page, and publish it in the header. -/
def rootSplit (t : BTree) (r : Nat) (ik : Int) (iv : Nat) : BTree :=
  { t with pages := t.pages ++ [.internalP [0, ik] [r, iv]],
           root := some t.pages.length }

/-- Result of one internal-node split. -/
structure ISplit where
  leftKeys : List Int
  leftChildren : List Nat
  rightKeys : List Int
  rightChildren : List Nat
  promoted : Int
  insKey : Int
  insVal : Nat
  small : Bool
deriving Repr, DecidableEq

/-- One internal-node split of the upward propagation loop (`Insert`, the
`while(true)` split block): splits the node `keys`/`children` around the
chosen middle, handling the `special` swap where the incoming separator
itself is the median and gets promoted.  Returns the left node, the right
node (sentinel key 0 at its slot 0, as left by `Init`), the promoted key,
and the key/child pair still to be inserted into one of the two sides
(`insert_page` is the left node exactly when `insert_small_than_tmp_key`). -/
def internalSplitParts (keys : List Int) (children : List Nat) (ik : Int) (iv : Nat) :
    ISplit :=
  let m := keys.length
  let mid0 := (m + 1) / 2
  let small := ik < keys.getD mid0 0
  let middle := if small then m / 2 else mid0
  let tkMid := keys.getD middle 0
  let special := small ∧ tkMid ≤ ik
  { leftKeys := keys.take middle
    leftChildren := children.take middle
    rightKeys := 0 :: keys.drop (middle + 1)
    rightChildren := (if special then iv else children.getD middle 0) :: children.drop (middle + 1)
    promoted := if special then ik else tkMid
    insKey := if special then tkMid else ik
    insVal := if special then children.getD middle 0 else iv
    small := small }

/-- The insertion loop shared by the internal no-split branch and the
post-split side insertion: `for (i = 1; i <= size; i++)` placing the pair at
the first slot whose key is not below `ik`.  When the node has size 0 the
loop body never runs and nothing is inserted. -/
def internalInsertKV (keys : List Int) (children : List Nat) (ik : Int) (iv : Nat) :
    List Int × List Nat :=
  if keys.length = 0 then (keys, children)
  else
    let pos := internalInsertPos keys ik
    (insAt pos ik keys, insAt pos iv children)

/-- Upward split propagation of `Insert`: walk the ancestor stack from the
leaf's parent towards the root (`rpath` is the recorded write set, nearest
ancestor first), inserting the promoted pair or splitting further; an
exhausted stack falls through to `ROOT_SPLIT`.  `r` is the root page id
recorded in the operation's context. -/
def propagate (t : BTree) (r : Nat) (ik : Int) (iv : Nat) :
    List (Nat × Nat) → Option BTree
  | [] => some (rootSplit t r ik iv)
  | (pid, _) :: rest =>
    match t.pages.get? pid with
    | some (.internalP keys children) =>
      if keys.length < t.internalMax then
        if keys.length ≤ 1 then none  -- BUSTUB_ASSERT(root->GetSize() > 1)
        else
          let (keys1, children1) := internalInsertKV keys children ik iv
          some (t.setPage pid (.internalP keys1 children1))
      else
        if keys.length = 0 then none  -- BUSTUB_ASSERT(m > 0)
        else
          let p := internalSplitParts keys children ik iv
          let np := t.pages.length
          let left := if p.small then internalInsertKV p.leftKeys p.leftChildren p.insKey p.insVal
                      else (p.leftKeys, p.leftChildren)
          let right := if p.small then (p.rightKeys, p.rightChildren)
                       else internalInsertKV p.rightKeys p.rightChildren p.insKey p.insVal
          let t1 := { t.setPage pid (.internalP left.1 left.2) with
                      pages := (t.setPage pid (.internalP left.1 left.2)).pages
                        ++ [.internalP right.1 right.2] }
          propagate t1 r p.promoted np rest
    | _ => none

/-- Result of one leaf split. -/
structure LSplit where
  oldKeys : List Int
  oldVals : List Int
  oldNext : Option Nat
  newKeys : List Int
  newVals : List Int
  newNext : Option Nat
  sep : Int
deriving Repr, DecidableEq

/-- The leaf-split step of `Insert`: with `m = size` and `mid = (m+1)/2`,
slots `[mid, m)` move to the new leaf (page `np`), the old leaf shrinks to
`mid` slots, the leaf list is threaded `old -> new -> old.next`, and the
promoted separator is the key at slot `mid`. -/
def leafSplitParts (keys vals : List Int) (next : Option Nat) (np : Nat) : LSplit :=
  let m := keys.length
  let mid := (m + 1) / 2
  { oldKeys := keys.take mid
    oldVals := vals.take mid
    oldNext := some np
    newKeys := keys.drop mid
    newVals := vals.drop mid
    newNext := next
    sep := keys.getD mid 0 }

/-- The leaf-split phase of `Insert` followed by upward propagation and the
final `INSERTION_END` placement of `(k, v)` into whichever half the key
belongs to. -/
def splitInsert (t : BTree) (r : Nat) (path : List (Nat × Nat)) (leafPid : Nat)
    (keys vals : List Int) (next : Option Nat) (k v : Int) : Option BTree :=
  let m := keys.length
  if m = 0 then none  -- BUSTUB_ASSERT(m > 0)
  else
    let np := t.pages.length
    let s := leafSplitParts keys vals next np
    let tmpKey := s.sep
    let t1 := { t with pages :=
      (t.pages.set leafPid (.leafP s.oldKeys s.oldVals s.oldNext))
        ++ [.leafP s.newKeys s.newVals s.newNext] }
    let target := if tmpKey < k then np else leafPid
    match propagate t1 r tmpKey np path.reverse with
    | none => none
    | some t2 =>
      match t2.pages.get? target with
      | some (.leafP ks vs nx) =>
        let pos := leafInsertPos ks k
        some (t2.setPage target (.leafP (insAt pos k ks) (insAt pos v vs) nx))
      | _ => none

/-- `BPlusTree::Insert`: returns the reported boolean and the resulting
tree; `none` models an aborted assertion or a traversal that runs off the
page store. -/
def insert (t : BTree) (k v : Int) : Option (Bool × BTree) :=
  match t.root with
  | none =>
    some (true, { t with pages := t.pages ++ [.leafP [k] [v] none],
                         root := some t.pages.length })
  | some r =>
    match searchLeaf t k r with
    | none => none
    | some (path, leafPid) =>
      match t.pages.get? leafPid with
      | some (.leafP keys vals next) =>
        if hasKey k keys then some (false, t)
        else if keys.length = t.leafMax then
          match splitInsert t r path leafPid keys vals next k v with
          | none => none
          | some t2 => some (true, t2)
        else
          let pos := leafInsertPos keys k
          some (true, t.setPage leafPid (.leafP (insAt pos k keys) (insAt pos v vals) next))
      | _ => none

/-!  Deletion engine (`BPlusTree::Remove`). -/

/-- Fetch a page expecting a leaf (the `AsMut<LeafPage>` view). -/
def getLeaf? (t : BTree) (pid : Nat) : Option (List Int × List Int × Option Nat) :=
  match t.pages.get? pid with
  | some (.leafP ks vs nx) => some (ks, vs, nx)
  | _ => none

/-- Fetch a page expecting an internal node (the `AsMut<InternalPage>` view). -/
def getInternal? (t : BTree) (pid : Nat) : Option (List Int × List Nat) :=
  match t.pages.get? pid with
  | some (.internalP ks cs) => some (ks, cs)
  | _ => none

/-- The trailing ancestor-update loop of the steal paths: pop the remaining
write set (nearest ancestor first); wherever the key at the recorded
descent slot equals the removed key, overwrite it with `updateKey`. -/
def ancestorUpdate (k updateKey : Int) : BTree → List (Nat × Nat) → Option BTree
  | t, [] => some t
  | t, (pid, pos) :: rest =>
    match getInternal? t pid with
    | some (ks, cs) =>
      let t1 := if ks.getD pos 0 = k
                then t.setPage pid (.internalP (ks.set pos updateKey) cs)
                else t
      ancestorUpdate k updateKey t1 rest
    | none => none

/-- The separator-update climb as entered from the leaf-level steal.  At the
first popped ancestor the page its path slot points to is the leaf's parent,
whose write guard (`root_guard`) the thread still holds, so the
`FetchPageRead` inside the matching-key branch blocks forever on the page
latch (modelled as `none`); at every deeper ancestor the previously popped
guard has already been dropped by the move-assignment and the climb proceeds
exactly as `ancestorUpdate`. -/
def ancestorUpdateL (k updateKey : Int) (t : BTree) (restR : List (Nat × Nat)) : Option BTree :=
  match restR with
  | [] => some t
  | (pid, pos) :: _ =>
    match getInternal? t pid with
    | some (ks, _) =>
      if ks.getD pos 0 = k then none
      else ancestorUpdate k updateKey t restR
    | none => none

/-- Index of the separator equal to `dk` in an internal node (the deletion
scan starting at slot 1); `none` fires `BUSTUB_ASSERT(is_find)`. -/
def internalDeleteIdx (ks : List Int) (dk : Int) : Option Nat :=
  match (ks.drop 1).findIdx? (fun x => x = dk) with
  | some j => some (j + 1)
  | none => none

/-- The corrupting in-place right-shift of the leaf steal-from-prev path:
`for (j = 1; j < size; j++) A[j] = A[j-1]` run in ascending order replicates
slot 0 over the whole array; slot 0 is then overwritten with the donated
entry. -/
def stealPrevLeafArr (donor : α) (zero : α) (l : List α) : List α :=
  donor :: List.replicate l.length (l.headD zero)

/-- The same ascending shift in the internal steal-from-prev path, starting
at slot 2 (slot 0 is the sentinel): keeps slots 0 and 1, replicates slot 1
over slots 2..size, then writes the pulled-down parent separator at slot 1,
moves child 0 to slot 1 and the donated child into slot 0. -/
def stealPrevInternalKeys (psep : Int) (ks : List Int) : List Int :=
  ks.headD 0 :: psep :: List.replicate (ks.length - 1) (ks.getD 1 0)

def stealPrevInternalChildren (donated : Nat) (cs : List Nat) : List Nat :=
  donated :: cs.headD 0 :: List.replicate (cs.length - 1) (cs.getD 1 0)

/-- Junk left in a page that was merged away: the source calls
`IncreaseSize(GetSize())`, doubling the size field instead of zeroing it;
the newly exposed slots hold stale frame content (modelled as 0).  The page
is no longer referenced from the root. -/
def doubledLeaf (ks vs : List Int) (nx : Option Nat) : BPage :=
  .leafP (ks ++ List.replicate ks.length 0) (vs ++ List.replicate vs.length 0) nx

def doubledInternal (ks : List Int) (cs : List Nat) : BPage :=
  .internalP (ks ++ List.replicate ks.length 0) (cs ++ List.replicate cs.length 0)

/-- The borrow-or-merge cascade over internal nodes (`Remove`, the
`while(true)` loop after `MERGE_NODE`): delete `deleteKey` from the node,
collapse the root when the stack is empty and a single child remains,
otherwise steal from or merge with a sibling under the grandparent and
either stop (steal) or continue upward (merge).  The pages whose write
guards the thread still holds are threaded through: `pg`/`ng` are the
contents of the `prev_guard`/`next_guard` variables on entry to the loop
iteration (a sibling fetched at the previous level that its merge did not
consume).  A `FetchPageWrite` of a page whose guard is already held — the
current node, its parent, an ancestor still on the write set, or a live
guard variable — blocks forever on the page latch and is modelled as
`none`; the old content of a guard variable is dropped by the
move-assignment only after the fetch, so the first fetch of an iteration
also checks the stale `pg`, and the second fetch checks the freshly
fetched previous sibling but no longer the stale `pg`. -/
def mergeUpFrom (pg ng : Option Nat) (nodePid : Nat) (deleteKey updateKey k : Int) :
    BTree → List (Nat × Nat) → Option BTree
  | t, restR =>
    match getInternal? t nodePid with
    | none => none
    | some (nk, nc) =>
      match internalDeleteIdx nk deleteKey with
      | none => none  -- BUSTUB_ASSERT(is_find)
      | some i =>
        let nk1 := nk.eraseIdx i
        let nc1 := nc.eraseIdx i
        let t1 := t.setPage nodePid (.internalP nk1 nc1)
        match restR with
        | [] =>
          if nk1.length = 1 then some { t1 with root := some (nc1.headD 0) }
          else some t1
        | (ppid, ipos) :: rest2 =>
          match getInternal? t1 ppid with
          | none => none
          | some (pk, pc) =>
            let held := nodePid :: ppid :: rest2.map Prod.fst ++ pg.toList ++ ng.toList
            let fetchSibs : Option ((Option (Nat × List Int × List Nat)) ×
                                    (Option (Nat × List Int × List Nat))) :=
              if ipos = pk.length - 1 then
                if ipos = 0 then none
                else if held.contains (pc.getD (ipos - 1) 0) then none
                else
                  match getInternal? t1 (pc.getD (ipos - 1) 0) with
                  | some (a, b) => some (some (pc.getD (ipos - 1) 0, a, b), none)
                  | none => none
              else if ipos = 0 then
                if held.contains (pc.getD (ipos + 1) 0) then none
                else
                  match getInternal? t1 (pc.getD (ipos + 1) 0) with
                  | some (a, b) => some (none, some (pc.getD (ipos + 1) 0, a, b))
                  | none => none
              else
                if held.contains (pc.getD (ipos - 1) 0) then none
                else if (pc.getD (ipos - 1) 0 :: nodePid :: ppid :: rest2.map Prod.fst
                    ++ ng.toList).contains (pc.getD (ipos + 1) 0) then none
                else
                  match getInternal? t1 (pc.getD (ipos - 1) 0),
                        getInternal? t1 (pc.getD (ipos + 1) 0) with
                  | some (a, b), some (c, d) =>
                    some (some (pc.getD (ipos - 1) 0, a, b), some (pc.getD (ipos + 1) 0, c, d))
                  | _, _ => none
            match fetchSibs with
            | none => none
            | some (pvOpt, nxOpt) =>
              let biggerSize :=
                match pvOpt, nxOpt with
                | some (_, a, _), none => a.length
                | none, some (_, c, _) => c.length
                | some (_, a, _), some (_, c, _) => max c.length a.length
                | none, none => 0
              if biggerSize - 1 < minSize t.internalMax then
                -- internal merge
                let info : Option (Nat × Nat × Int) :=
                  if ipos ≠ 0 then
                    match pvOpt with
                    | some (ppid2, _, _) => some (ppid2, nodePid, pk.getD ipos 0)
                    | none => none
                  else
                    match nxOpt with
                    | some (npid2, _, _) => some (nodePid, npid2, pk.getD (ipos + 1) 0)
                    | none => none
                match info with
                | none => none
                | some (toPid, fromPid, dk2) =>
                  match getInternal? t1 toPid, getInternal? t1 fromPid with
                  | some (tK, tC), some (fK, fC) =>
                    let t2 := (t1.setPage toPid
                        (.internalP (tK ++ [dk2] ++ fK.drop 1)
                                    (tC ++ [fC.headD 0] ++ fC.drop 1))).setPage
                        fromPid (doubledInternal fK fC)
                    let pg2 : Option Nat := if ipos = 0 then pg else none
                    let ng2 : Option Nat :=
                      if ipos = 0 then none
                      else if ipos = pk.length - 1 then ng
                      else some (pc.getD (ipos + 1) 0)
                    mergeUpFrom pg2 ng2 ppid dk2 updateKey k t2 rest2
                  | _, _ => none
              else
                -- internal steal
                let stealPrev :=
                  match pvOpt, nxOpt with
                  | _, none => true
                  | none, _ => false
                  | some (_, a, _), some (_, c, _) => c.length ≤ a.length
                if stealPrev then
                  match pvOpt with
                  | none => none
                  | some (prevPid, pvK, pvC) =>
                    if deleteKey = pk.getD ipos 0 then none  -- BUSTUB_ASSERT(false)
                    else
                      let node' : BPage := .internalP
                        (stealPrevInternalKeys (pk.getD ipos 0) nk1)
                        (stealPrevInternalChildren (pvC.getD (pvC.length - 1) 0) nc1)
                      let t2 := ((t1.setPage nodePid node').setPage ppid
                          (.internalP (pk.set ipos (pvK.getD (pvK.length - 1) 0)) pc)).setPage
                          prevPid (.internalP pvK.dropLast pvC.dropLast)
                      ancestorUpdate k updateKey t2 rest2
                else
                  match nxOpt with
                  | none => none
                  | some (nextPid, nxK, nxC) =>
                    let node' : BPage := .internalP
                      (nk1 ++ [pk.getD (ipos + 1) 0]) (nc1 ++ [nxC.headD 0])
                    let t2 := ((t1.setPage nodePid node').setPage ppid
                        (.internalP (pk.set (ipos + 1) (nxK.getD 1 0)) pc)).setPage
                        nextPid (.internalP (nxK.headD 0 :: nxK.drop 2) (nxC.drop 1))
                    ancestorUpdate k updateKey t2 rest2

/-- The cascade entered with no sibling guard carried over (as after a
leaf merge at an edge position, where the one fetched sibling was consumed
by the merge). -/
def mergeUp (nodePid : Nat) (deleteKey updateKey k : Int) :
    BTree → List (Nat × Nat) → Option BTree :=
  mergeUpFrom none none nodePid deleteKey updateKey k

/-- Leaf-level rebalancing mechanics of `Remove`: with the under-full
leaf's siblings read under its parent, steal from the bigger one when that
leaves it at or above minimum (ties and a missing right sibling prefer the
left), else merge (into the left sibling when one exists, otherwise absorb
the right) and continue upward with `mergeUpFrom`, carrying the guard of a
fetched sibling the merge did not consume.  The sibling fetches themselves
are latched by the caller (`removeLeafRebalanceGuarded`), which refuses the
aliased cases where the source deadlocks. -/
def removeLeafRebalance (t : BTree) (parentPid pos leafPid : Nat) (k : Int)
    (restR : List (Nat × Nat)) : Option BTree :=
  match getInternal? t parentPid, getLeaf? t leafPid with
  | some (pk, pc), some (lk, lv, ln) =>
    let fetchSibs : Option ((Option (Nat × List Int × List Int × Option Nat)) ×
                            (Option (Nat × List Int × List Int × Option Nat))) :=
      if pos = pk.length - 1 then
        if pos = 0 then none
        else
          match getLeaf? t (pc.getD (pos - 1) 0) with
          | some pl => some (some (pc.getD (pos - 1) 0, pl), none)
          | none => none
      else if pos = 0 then
        match getLeaf? t (pc.getD (pos + 1) 0) with
        | some nl => some (none, some (pc.getD (pos + 1) 0, nl))
        | none => none
      else
        match getLeaf? t (pc.getD (pos - 1) 0), getLeaf? t (pc.getD (pos + 1) 0) with
        | some pl, some nl =>
          some (some (pc.getD (pos - 1) 0, pl), some (pc.getD (pos + 1) 0, nl))
        | _, _ => none
    match fetchSibs with
    | none => none
    | some (pvOpt, nxOpt) =>
      let biggerSize :=
        match pvOpt, nxOpt with
        | some (_, a, _, _), none => a.length
        | none, some (_, c, _, _) => c.length
        | some (_, a, _, _), some (_, c, _, _) => max c.length a.length
        | none, none => 0
      if biggerSize - 1 < minSize t.leafMax then
        -- MERGE_NODE: leaf-level merge
        let info : Option (Nat × Nat × Int) :=
          if pos ≠ 0 then
            match pvOpt with
            | some (ppid2, _, _, _) => some (ppid2, leafPid, pk.getD pos 0)
            | none => none
          else
            match nxOpt with
            | some (npid2, _, _, _) => some (leafPid, npid2, pk.getD (pos + 1) 0)
            | none => none
        match info with
        | none => none
        | some (toPid, fromPid, dk) =>
          match getLeaf? t toPid, getLeaf? t fromPid with
          | some (tK, tV, _), some (fK, fV, fN) =>
            let updateKey := (tK ++ fK).headD 0
            let t2 := (t.setPage toPid (.leafP (tK ++ fK) (tV ++ fV) fN)).setPage
                fromPid (doubledLeaf fK fV fN)
            let ng2 : Option Nat :=
              if pos = 0 then none
              else if pos = pk.length - 1 then none
              else some (pc.getD (pos + 1) 0)
            mergeUpFrom none ng2 parentPid dk updateKey k t2 restR
          | _, _ => none
      else
        -- steal an entry from the bigger sibling
        let stealPrev :=
          match pvOpt, nxOpt with
          | _, none => true
          | none, _ => false
          | some (_, a, _, _), some (_, c, _, _) => c.length ≤ a.length
        if stealPrev then
          match pvOpt with
          | none => none
          | some (prevPid, pvK, pvV, pvN) =>
            let lk1 := stealPrevLeafArr (pvK.getD (pvK.length - 1) 0) 0 lk
            let lv1 := stealPrevLeafArr (pvV.getD (pvV.length - 1) 0) 0 lv
            let pk1 := if 0 < pos then pk.set pos (lk1.headD 0) else pk
            let t2 := ((t.setPage leafPid (.leafP lk1 lv1 ln)).setPage prevPid
                (.leafP pvK.dropLast pvV.dropLast pvN)).setPage parentPid
                (.internalP pk1 pc)
            ancestorUpdateL k (lk1.headD 0) t2 restR
        else
          match nxOpt with
          | none => none
          | some (nextPid, nxK, nxV, nxN) =>
            let lk1 := lk ++ [nxK.headD 0]
            let lv1 := lv ++ [nxV.headD 0]
            let pk1 := pk.set (pos + 1) (nxK.getD 1 0)
            let pk2 := if 0 < pos then pk1.set pos (lk1.headD 0) else pk1
            let t2 := ((t.setPage leafPid (.leafP lk1 lv1 ln)).setPage nextPid
                (.leafP (nxK.drop 1) (nxV.drop 1) nxN)).setPage parentPid
                (.internalP pk2 pc)
            ancestorUpdateL k (lk1.headD 0) t2 restR
  | _, _ => none

/-- The latch-aware entry to the leaf rebalance.  On entry the thread
still holds the write guards of the under-full leaf, of its parent and of
every ancestor left on the write set, so a sibling `FetchPageWrite` that
aliases one of them blocks forever on the page latch; when both siblings
are fetched, the second fetch additionally blocks if it aliases the
just-fetched previous sibling.  These deadlocks are modelled as `none`;
otherwise the rebalance mechanics of `removeLeafRebalance` run. -/
def removeLeafRebalanceGuarded (t : BTree) (parentPid pos leafPid : Nat) (k : Int)
    (restR : List (Nat × Nat)) : Option BTree :=
  match getInternal? t parentPid with
  | none => none
  | some (pk, pc) =>
    let held := leafPid :: parentPid :: restR.map Prod.fst
    if pos ≠ 0 ∧ held.contains (pc.getD (pos - 1) 0) then none
    else if pos ≠ pk.length - 1 ∧
        ((if pos = 0 then held else pc.getD (pos - 1) 0 :: held).contains
          (pc.getD (pos + 1) 0)) then none
    else removeLeafRebalance t parentPid pos leafPid k restR

/-- `BPlusTree::Remove`: no result value; `none` models an aborted
assertion, a traversal that runs off the page store, or a page fetch that
deadlocks on a guard the call already holds. -/
def remove (t : BTree) (k : Int) : Option BTree :=
  match t.root with
  | none => some t
  | some r =>
    match searchLeaf t k r with
    | none => none
    | some (path, leafPid) =>
      match t.pages.get? leafPid with
      | some (.leafP keys vals next) =>
        let del :=
          match keys.findIdx? (fun x => x = k) with
          | some i => (keys.eraseIdx i, vals.eraseIdx i)
          | none => (keys, vals)
        let t1 := t.setPage leafPid (.leafP del.1 del.2 next)
        if minSize t.leafMax ≤ del.1.length then some t1
        else
          match path.reverse with
          | [] =>
            if 0 < del.1.length then some t1
            else some { t1 with root := none }
          | (parentPid, pos) :: restR =>
            removeLeafRebalanceGuarded t1 parentPid pos leafPid k restR
      | _ => none

/-- `BPlusTree::IsEmpty`: `true` when the header has no root, when the root
is an empty leaf, or when the root is an internal page of size at most 1. -/
def isEmpty (t : BTree) : Option Bool :=
  match t.root with
  | none => some true
  | some r =>
    match t.pages.get? r with
    | some (.leafP ks _ _) => some (ks.length = 0)
    | some (.internalP ks _) => some (ks.length ≤ 1)
    | none => none

/-- One public mutating operation. -/
inductive Op where
  | ins (k v : Int)
  | rem (k : Int)
deriving Repr, DecidableEq

/-- Run one operation, keeping only the resulting state. -/
def applyOp (t : BTree) : Op → Option BTree
  | .ins k v => (insert t k v).map (·.2)
  | .rem k => remove t k

/-- Run a whole operation sequence from a given state. -/
def applyOps : BTree → List Op → Option BTree
  | t, [] => some t
  | t, op :: ops =>
    match applyOp t op with
    | some t1 => applyOps t1 ops
    | none => none

attribute [simp] minSize BTree.setPage childIndexAux childIndex searchLeafAux
  searchLeaf scanKV getValue hasKey leafInsertPos internalInsertPos insAt
  rootSplit internalSplitParts internalInsertKV propagate leafSplitParts
  splitInsert insert getLeaf? getInternal? ancestorUpdate ancestorUpdateL
  internalDeleteIdx
  stealPrevLeafArr stealPrevInternalKeys stealPrevInternalChildren doubledLeaf
  doubledInternal mergeUpFrom mergeUp removeLeafRebalance
  removeLeafRebalanceGuarded remove isEmpty applyOp applyOps
  BTree.openTree

/-- States reachable from a freshly opened tree by completed (non-aborting)
public operations. -/
inductive Reach (lm im : Nat) : BTree → Prop where
  | openT : Reach lm im (BTree.openTree lm im)
  | ins {t t' : BTree} {k v : Int} {b : Bool} :
      Reach lm im t → insert t k v = some (b, t') → Reach lm im t'
  | rem {t t' : BTree} {k : Int} :
      Reach lm im t → remove t k = some t' → Reach lm im t'

/-!  The concurrent Trie (`p0_trie.h`).

The subclass pair `TrieNode` / `TrieNodeWithValue<T>` is modelled as one
tagged node, as the spec's design notes prescribe: `is_end_` is the flag
checked by `IsEndNode`, and the typed payload of a `TrieNodeWithValue` is an
optional tagged value (`none` for a plain `TrieNode`); `dynamic_cast` to
`TrieNodeWithValue<T>` succeeds exactly when the node was built as a
`TrieNodeWithValue` whose payload type is `T`, that is when the stored tag
matches.  The latch serialises every operation, so each public call acts on
the tree state atomically and is modelled as a pure function.
`children_` (an `unordered_map`) is an association list with unique
character keys; `InsertChildNode` appends, `RemoveChildNode` erases,
`GetChildNode` finds — the map's iteration order never matters. -/

/-- The runtime types stored in the tests: `int` and `std::string`. -/
inductive TTag where
  | tInt
  | tStr
deriving Repr, DecidableEq

/-- A stored value together with its runtime type. -/
inductive TVal where
  | vInt (n : Int)
  | vStr (s : String)
deriving Repr, DecidableEq

/-- Runtime type of a stored value. -/
def TVal.tag : TVal → TTag
  | .vInt _ => .tInt
  | .vStr _ => .tStr

/-- The default-constructed value of a type (`return {}`). -/
def TTag.defaultVal : TTag → TVal
  | .tInt => .vInt 0
  | .tStr => .vStr ""

/-- One trie node: key char, `is_end_`, the `TrieNodeWithValue` payload
(`none` for a plain node), and the children map. -/
inductive TrieNode where
  | mk (key : Char) (isEnd : Bool) (val : Option TVal)
       (children : List (Char × TrieNode))
deriving Repr

def TrieNode.key : TrieNode → Char
  | .mk c _ _ _ => c

def TrieNode.isEnd : TrieNode → Bool
  | .mk _ e _ _ => e

def TrieNode.val : TrieNode → Option TVal
  | .mk _ _ v _ => v

def TrieNode.children : TrieNode → List (Char × TrieNode)
  | .mk _ _ _ ch => ch

/-- `GetChildNode`. -/
def lookupChild (c : Char) : List (Char × TrieNode) → Option TrieNode
  | [] => none
  | (c0, n) :: rest => if c0 = c then some n else lookupChild c rest

/-- `RemoveChildNode`. -/
def eraseChild (c : Char) : List (Char × TrieNode) → List (Char × TrieNode)
  | [] => []
  | (c0, n) :: rest => if c0 = c then rest else (c0, n) :: eraseChild c rest

/-- In-place update of an existing child (mutation through the
`unique_ptr` returned by `GetChildNode`). -/
def replaceChild (c : Char) (n' : TrieNode) : List (Char × TrieNode) → List (Char × TrieNode)
  | [] => []
  | (c0, n) :: rest => if c0 = c then (c0, n') :: rest else (c0, n) :: replaceChild c n' rest

/-- An empty trie: the root node carries the NUL character. -/
def Trie.empty : TrieNode := .mk ⟨0, by decide⟩ false none []

/-- The per-character body of `Trie::Insert`, written as a recursion on the
remaining key (the loop walks `t` down, creating missing nodes; at the last
character an existing non-terminal node is rebuilt as a terminal
`TrieNodeWithValue` keeping its children — `RemoveChildNode` then
`InsertChildNode` —, and an existing terminal makes the call return `false`
with nothing changed). -/
def trieInsertGo (v : TVal) : TrieNode → Char → List Char → Bool × TrieNode
  | .mk nk ne nv ch, c, rest =>
    match lookupChild c ch with
    | none =>
      match rest with
      | [] => (true, .mk nk ne nv (ch ++ [(c, .mk c true (some v) [])]))
      | c' :: rest' =>
        let r := trieInsertGo v (.mk c false none []) c' rest'
        (r.1, .mk nk ne nv (ch ++ [(c, r.2)]))
    | some child =>
      match rest with
      | [] =>
        if child.isEnd then (false, .mk nk ne nv ch)
        else (true, .mk nk ne nv
          (eraseChild c ch ++ [(c, .mk child.key true (some v) child.children)]))
      | c' :: rest' =>
        let r := trieInsertGo v child c' rest'
        (r.1, .mk nk ne nv (replaceChild c r.2 ch))

/-- `Trie::Insert`: an empty key fails immediately. -/
def trieInsert (root : TrieNode) (key : List Char) (v : TVal) : Bool × TrieNode :=
  match key with
  | [] => (false, root)
  | c :: rest => trieInsertGo v root c rest

/-- `Trie::RemoveHelper`.  At the last character, a marked terminal with
children is moved out of the map and reinserted unchanged — the source
moves the `unique_ptr` itself (`std::unique_ptr<TrieNode> tmp(std::move(*node))`),
so the very same `TrieNodeWithValue` object, `is_end_` and payload
included, goes back in; a childless terminal is erased.  On the way back
up, a child that has become non-terminal and childless is erased. -/
def trieRemoveGo : TrieNode → Char → List Char → Bool × TrieNode
  | .mk nk ne nv ch, c, rest =>
    match lookupChild c ch with
    | none => (false, .mk nk ne nv ch)
    | some child =>
      match rest with
      | [] =>
        if child.isEnd then
          if child.children.isEmpty then
            (true, .mk nk ne nv (eraseChild c ch))
          else
            (true, .mk nk ne nv (eraseChild c ch ++ [(c, child)]))
        else (false, .mk nk ne nv ch)
      | c' :: rest' =>
        let r := trieRemoveGo child c' rest'
        let ch1 := replaceChild c r.2 ch
        let ch2 :=
          match lookupChild c ch1 with
          | some n => if !n.isEnd && n.children.isEmpty then eraseChild c ch1 else ch1
          | none => ch1
        (r.1, .mk nk ne nv ch2)

/-- `Trie::Remove`: `none` models the uncaught `std::out_of_range` that
`key.at(0)` throws on an empty key. -/
def trieRemove (root : TrieNode) (key : List Char) : Option (Bool × TrieNode) :=
  match key with
  | [] => none
  | c :: rest => some (trieRemoveGo root c rest)

/-- The walk of `Trie::GetValue`. -/
def trieWalk : TrieNode → List Char → Option TrieNode
  | n, [] => some n
  | n, c :: rest =>
    match lookupChild c n.children with
    | none => none
    | some child => trieWalk child rest

/-- `Trie::GetValue<T>`: empty key, missing path, unmarked terminal or a
`dynamic_cast` to the wrong `TrieNodeWithValue<T>` all yield `success =
false` with a default-constructed value. -/
def trieGet (root : TrieNode) (key : List Char) (tag : TTag) : Bool × TVal :=
  match key with
  | [] => (false, tag.defaultVal)
  | _ :: _ =>
    match trieWalk root key with
    | none => (false, tag.defaultVal)
    | some n =>
      if ¬n.isEnd then (false, tag.defaultVal)
      else
        match n.val with
        | some v => if v.tag = tag then (true, v) else (false, tag.defaultVal)
        | none => (false, tag.defaultVal)

attribute [simp] TVal.tag TTag.defaultVal TrieNode.key TrieNode.isEnd TrieNode.val
  TrieNode.children lookupChild eraseChild replaceChild Trie.empty trieInsertGo
  trieInsert trieRemoveGo trieRemove trieWalk trieGet

/-!  Concrete states and single-operation evaluation steps used by the
end-to-end scenarios and the failing inputs.  Naming: `bug*` is the
leaf-borrow corruption run (leaf_max = internal_max = 6), `cor*` the
run whose corrupted state defeats the insert/lookup round trip
(leaf_max 3, internal_max 5), `spl*` the run reaching an internal split
whose incoming separator is the median (leaf_max 4, internal_max 5),
`sc*` the split/merge/root-collapse run and `bor*` the borrow-from-right
scenario (leaf_max = internal_max = 4).  Each `...S<n>` theorem evaluates
one public operation.  The operation lists:
-/

/-- Operations of the `bug` run: its 10-op prefix reaches `bugT10`, whose
leaf 1 reads `[3, 4, 4]` after the corrupting borrow (key 5 is lost). -/
def bugOps : List Op :=
  [.ins 1 1, .ins 2 2, .ins 3 3, .ins 4 4, .ins 5 5, .ins 6 6, .ins 7 7,
   .ins 0 0, .rem 7, .rem 6, .rem 4, .rem 4, .rem 3, .rem 2, .rem 1, .rem 0]

/-- Operations of the `cor` run. -/
def corOps : List Op :=
  [.ins 15 15, .ins 1 1, .ins 13 13, .ins 11 11, .ins 22 22, .ins 6 6,
   .ins 16 16, .ins 10 10, .ins 9 9, .ins 19 19, .ins 18 18, .ins 8 8,
   .rem 15, .rem 18, .rem 12, .ins 21 21, .ins 28 28, .rem 16, .ins 29 29,
   .rem 11, .rem 21, .ins 24 24]

/-- Operations of the `spl` run. -/
def splOps : List Op :=
  [.ins 10 10, .ins 20 20, .ins 30 30, .ins 40 40, .ins 50 50, .ins 60 60,
   .ins 70 70, .ins 80 80, .ins 90 90, .ins 100 100, .ins 110 110,
   .ins 52 52, .ins 54 54, .ins 56 56]

/-- Operations of the `sc` run. -/
def scOps : List Op :=
  [.ins 1 1, .ins 2 2, .ins 3 3, .ins 4 4, .ins 5 5, .ins 6 6, .ins 7 7,
   .rem 1, .rem 2, .rem 3, .rem 4, .rem 5, .rem 6, .rem 7]

def bugT0 : BTree :=
  ⟨6, 6,
    [],
    none⟩

def bugT1 : BTree :=
  ⟨6, 6,
    [.leafP [1] [1] none],
    (some 0)⟩

def bugT2 : BTree :=
  ⟨6, 6,
    [.leafP [1, 2] [1, 2] none],
    (some 0)⟩

def bugT3 : BTree :=
  ⟨6, 6,
    [.leafP [1, 2, 3] [1, 2, 3] none],
    (some 0)⟩

def bugT4 : BTree :=
  ⟨6, 6,
    [.leafP [1, 2, 3, 4] [1, 2, 3, 4] none],
    (some 0)⟩

def bugT5 : BTree :=
  ⟨6, 6,
    [.leafP [1, 2, 3, 4, 5] [1, 2, 3, 4, 5] none],
    (some 0)⟩

def bugT6 : BTree :=
  ⟨6, 6,
    [.leafP [1, 2, 3, 4, 5, 6] [1, 2, 3, 4, 5, 6] none],
    (some 0)⟩

def bugT7 : BTree :=
  ⟨6, 6,
    [.leafP [1, 2, 3] [1, 2, 3] (some 1),
     .leafP [4, 5, 6, 7] [4, 5, 6, 7] none,
     .internalP [0, 4] [0, 1]],
    (some 2)⟩

def bugT8 : BTree :=
  ⟨6, 6,
    [.leafP [0, 1, 2, 3] [0, 1, 2, 3] (some 1),
     .leafP [4, 5, 6, 7] [4, 5, 6, 7] none,
     .internalP [0, 4] [0, 1]],
    (some 2)⟩

def bugT9 : BTree :=
  ⟨6, 6,
    [.leafP [0, 1, 2, 3] [0, 1, 2, 3] (some 1),
     .leafP [4, 5, 6] [4, 5, 6] none,
     .internalP [0, 4] [0, 1]],
    (some 2)⟩

def bugT10 : BTree :=
  ⟨6, 6,
    [.leafP [0, 1, 2] [0, 1, 2] (some 1),
     .leafP [3, 4, 4] [3, 4, 4] none,
     .internalP [0, 3] [0, 1]],
    (some 2)⟩

def bugT11 : BTree :=
  ⟨6, 6,
    [.leafP [0, 1, 2, 3, 4] [0, 1, 2, 3, 4] none,
     .leafP [3, 4, 0, 0] [3, 4, 0, 0] none,
     .internalP [0] [0]],
    (some 0)⟩

def bugT12 : BTree :=
  ⟨6, 6,
    [.leafP [0, 1, 2, 3] [0, 1, 2, 3] none,
     .leafP [3, 4, 0, 0] [3, 4, 0, 0] none,
     .internalP [0] [0]],
    (some 0)⟩

def bugT13 : BTree :=
  ⟨6, 6,
    [.leafP [0, 1, 2] [0, 1, 2] none,
     .leafP [3, 4, 0, 0] [3, 4, 0, 0] none,
     .internalP [0] [0]],
    (some 0)⟩

def bugT14 : BTree :=
  ⟨6, 6,
    [.leafP [0, 1] [0, 1] none,
     .leafP [3, 4, 0, 0] [3, 4, 0, 0] none,
     .internalP [0] [0]],
    (some 0)⟩

def bugT15 : BTree :=
  ⟨6, 6,
    [.leafP [0] [0] none,
     .leafP [3, 4, 0, 0] [3, 4, 0, 0] none,
     .internalP [0] [0]],
    (some 0)⟩

def bugT16 : BTree :=
  ⟨6, 6,
    [.leafP [] [] none,
     .leafP [3, 4, 0, 0] [3, 4, 0, 0] none,
     .internalP [0] [0]],
    none⟩

def corT0 : BTree :=
  ⟨3, 5,
    [],
    none⟩

def corT1 : BTree :=
  ⟨3, 5,
    [.leafP [15] [15] none],
    (some 0)⟩
def corT2 : BTree :=
  ⟨3, 5,
    [.leafP [1, 15] [1, 15] none],
    (some 0)⟩
def corT3 : BTree :=
  ⟨3, 5,
    [.leafP [1, 13, 15] [1, 13, 15] none],
    (some 0)⟩
def corT4 : BTree :=
  ⟨3, 5,
    [.leafP [1, 11, 13] [1, 11, 13] (some 1),
     .leafP [15] [15] none,
     .internalP [0, 15] [0, 1]],
    (some 2)⟩
def corT5 : BTree :=
  ⟨3, 5,
    [.leafP [1, 11, 13] [1, 11, 13] (some 1),
     .leafP [15, 22] [15, 22] none,
     .internalP [0, 15] [0, 1]],
    (some 2)⟩
def corT6 : BTree :=
  ⟨3, 5,
    [.leafP [1, 6, 11] [1, 6, 11] (some 3),
     .leafP [15, 22] [15, 22] none,
     .internalP [0, 13, 15] [0, 3, 1],
     .leafP [13] [13] (some 1)],
    (some 2)⟩
def corT7 : BTree :=
  ⟨3, 5,
    [.leafP [1, 6, 11] [1, 6, 11] (some 3),
     .leafP [15, 16, 22] [15, 16, 22] none,
     .internalP [0, 13, 15] [0, 3, 1],
     .leafP [13] [13] (some 1)],
    (some 2)⟩
def corT8 : BTree :=
  ⟨3, 5,
    [.leafP [1, 6, 10] [1, 6, 10] (some 4),
     .leafP [15, 16, 22] [15, 16, 22] none,
     .internalP [0, 11, 13, 15] [0, 4, 3, 1],
     .leafP [13] [13] (some 1),
     .leafP [11] [11] (some 3)],
    (some 2)⟩
def corT9 : BTree :=
  ⟨3, 5,
    [.leafP [1, 6, 9] [1, 6, 9] (some 5),
     .leafP [15, 16, 22] [15, 16, 22] none,
     .internalP [0, 10, 11, 13, 15] [0, 5, 4, 3, 1],
     .leafP [13] [13] (some 1),
     .leafP [11] [11] (some 3),
     .leafP [10] [10] (some 4)],
    (some 2)⟩
def corT10 : BTree :=
  ⟨3, 5,
    [.leafP [1, 6, 9] [1, 6, 9] (some 5),
     .leafP [15, 16, 19] [15, 16, 19] (some 6),
     .internalP [0, 10, 11] [0, 5, 4],
     .leafP [13] [13] (some 1),
     .leafP [11] [11] (some 3),
     .leafP [10] [10] (some 4),
     .leafP [22] [22] none,
     .internalP [0, 15, 22] [3, 1, 6],
     .internalP [0, 13] [2, 7]],
    (some 8)⟩
def corT11 : BTree :=
  ⟨3, 5,
    [.leafP [1, 6, 9] [1, 6, 9] (some 5),
     .leafP [15, 16, 18] [15, 16, 18] (some 9),
     .internalP [0, 10, 11] [0, 5, 4],
     .leafP [13] [13] (some 1),
     .leafP [11] [11] (some 3),
     .leafP [10] [10] (some 4),
     .leafP [22] [22] none,
     .internalP [0, 15, 19, 22] [3, 1, 9, 6],
     .internalP [0, 13] [2, 7],
     .leafP [19] [19] (some 6)],
    (some 8)⟩
def corT12 : BTree :=
  ⟨3, 5,
    [.leafP [1, 6, 8] [1, 6, 8] (some 10),
     .leafP [15, 16, 18] [15, 16, 18] (some 9),
     .internalP [0, 9, 10, 11] [0, 10, 5, 4],
     .leafP [13] [13] (some 1),
     .leafP [11] [11] (some 3),
     .leafP [10] [10] (some 4),
     .leafP [22] [22] none,
     .internalP [0, 15, 19, 22] [3, 1, 9, 6],
     .internalP [0, 13] [2, 7],
     .leafP [19] [19] (some 6),
     .leafP [9] [9] (some 5)],
    (some 8)⟩
def corT13 : BTree :=
  ⟨3, 5,
    [.leafP [1, 6, 8] [1, 6, 8] (some 10),
     .leafP [16, 18] [16, 18] (some 9),
     .internalP [0, 9, 10, 11] [0, 10, 5, 4],
     .leafP [13] [13] (some 1),
     .leafP [11] [11] (some 3),
     .leafP [10] [10] (some 4),
     .leafP [22] [22] none,
     .internalP [0, 15, 19, 22] [3, 1, 9, 6],
     .internalP [0, 13] [2, 7],
     .leafP [19] [19] (some 6),
     .leafP [9] [9] (some 5)],
    (some 8)⟩
def corT14 : BTree :=
  ⟨3, 5,
    [.leafP [1, 6, 8] [1, 6, 8] (some 10),
     .leafP [16, 0] [16, 0] (some 9),
     .internalP [0, 9, 10] [0, 10, 5],
     .leafP [13, 16] [13, 16] (some 9),
     .leafP [11] [11] (some 3),
     .leafP [10] [10] (some 4),
     .leafP [22] [22] none,
     .internalP [0, 13, 19, 19] [4, 3, 9, 9],
     .internalP [0, 11] [2, 7],
     .leafP [19] [19] (some 6),
     .leafP [9] [9] (some 5)],
    (some 8)⟩
def corT15 : BTree :=
  ⟨3, 5,
    [.leafP [1, 6, 8] [1, 6, 8] (some 10),
     .leafP [16, 0] [16, 0] (some 9),
     .internalP [0, 9, 10, 11, 19, 19] [0, 10, 5, 4, 9, 9],
     .leafP [13, 16, 0, 0] [13, 16, 0, 0] (some 9),
     .leafP [11, 13, 16] [11, 13, 16] (some 9),
     .leafP [10] [10] (some 4),
     .leafP [22] [22] none,
     .internalP [0, 19, 19, 0, 0, 0] [4, 9, 9, 0, 0, 0],
     .internalP [0] [2],
     .leafP [19] [19] (some 6),
     .leafP [9] [9] (some 5)],
    (some 2)⟩
def corT16 : BTree :=
  ⟨3, 5,
    [.leafP [1, 6, 8] [1, 6, 8] (some 10),
     .leafP [16, 0] [16, 0] (some 9),
     .internalP [0, 9, 10, 11, 19, 19] [0, 10, 5, 4, 9, 9],
     .leafP [13, 16, 0, 0] [13, 16, 0, 0] (some 9),
     .leafP [11, 13, 16] [11, 13, 16] (some 9),
     .leafP [10] [10] (some 4),
     .leafP [22] [22] none,
     .internalP [0, 19, 19, 0, 0, 0] [4, 9, 9, 0, 0, 0],
     .internalP [0] [2],
     .leafP [19, 21] [19, 21] (some 6),
     .leafP [9] [9] (some 5)],
    (some 2)⟩
def corT17 : BTree :=
  ⟨3, 5,
    [.leafP [1, 6, 8] [1, 6, 8] (some 10),
     .leafP [16, 0] [16, 0] (some 9),
     .internalP [0, 9, 10, 11, 19, 19] [0, 10, 5, 4, 9, 9],
     .leafP [13, 16, 0, 0] [13, 16, 0, 0] (some 9),
     .leafP [11, 13, 16] [11, 13, 16] (some 9),
     .leafP [10] [10] (some 4),
     .leafP [22] [22] none,
     .internalP [0, 19, 19, 0, 0, 0] [4, 9, 9, 0, 0, 0],
     .internalP [0] [2],
     .leafP [19, 21, 28] [19, 21, 28] (some 6),
     .leafP [9] [9] (some 5)],
    (some 2)⟩
def corT18 : BTree :=
  ⟨3, 5,
    [.leafP [1, 6, 8] [1, 6, 8] (some 10),
     .leafP [16, 0] [16, 0] (some 9),
     .internalP [0, 9, 10, 11, 19, 19] [0, 10, 5, 4, 9, 9],
     .leafP [13, 16, 0, 0] [13, 16, 0, 0] (some 9),
     .leafP [11, 13] [11, 13] (some 9),
     .leafP [10] [10] (some 4),
     .leafP [22] [22] none,
     .internalP [0, 19, 19, 0, 0, 0] [4, 9, 9, 0, 0, 0],
     .internalP [0] [2],
     .leafP [19, 21, 28] [19, 21, 28] (some 6),
     .leafP [9] [9] (some 5)],
    (some 2)⟩
def corT19 : BTree :=
  ⟨3, 5,
    [.leafP [1, 6, 8] [1, 6, 8] (some 10),
     .leafP [16, 0] [16, 0] (some 9),
     .internalP [0, 9, 10] [0, 10, 5],
     .leafP [13, 16, 0, 0] [13, 16, 0, 0] (some 9),
     .leafP [11, 13] [11, 13] (some 9),
     .leafP [10] [10] (some 4),
     .leafP [22] [22] none,
     .internalP [0, 19, 19, 0, 0, 0] [4, 9, 9, 0, 0, 0],
     .internalP [0] [2],
     .leafP [19, 21] [19, 21] (some 11),
     .leafP [9] [9] (some 5),
     .leafP [28, 29] [28, 29] (some 6),
     .internalP [0, 19, 19, 28] [4, 9, 9, 11],
     .internalP [0, 11] [2, 12]],
    (some 13)⟩
def corT20 : BTree :=
  ⟨3, 5,
    [.leafP [1, 6, 8] [1, 6, 8] (some 10),
     .leafP [16, 0] [16, 0] (some 9),
     .internalP [0, 9, 10, 11, 19, 28] [0, 10, 5, 4, 9, 11],
     .leafP [13, 16, 0, 0] [13, 16, 0, 0] (some 9),
     .leafP [13, 19, 21] [13, 19, 21] (some 11),
     .leafP [10] [10] (some 4),
     .leafP [22] [22] none,
     .internalP [0, 19, 19, 0, 0, 0] [4, 9, 9, 0, 0, 0],
     .internalP [0] [2],
     .leafP [19, 21, 0, 0] [19, 21, 0, 0] (some 11),
     .leafP [9] [9] (some 5),
     .leafP [28, 29] [28, 29] (some 6),
     .internalP [0, 19, 28, 0, 0, 0] [4, 9, 11, 0, 0, 0],
     .internalP [0] [2]],
    (some 2)⟩
def corT21 : BTree :=
  ⟨3, 5,
    [.leafP [1, 6, 8] [1, 6, 8] (some 10),
     .leafP [16, 0] [16, 0] (some 9),
     .internalP [0, 9, 10, 11, 19, 28] [0, 10, 5, 4, 9, 11],
     .leafP [13, 16, 0, 0] [13, 16, 0, 0] (some 9),
     .leafP [13, 19, 21] [13, 19, 21] (some 11),
     .leafP [10] [10] (some 4),
     .leafP [22] [22] none,
     .internalP [0, 19, 19, 0, 0, 0] [4, 9, 9, 0, 0, 0],
     .internalP [0] [2],
     .leafP [19, 0, 0] [19, 0, 0] (some 11),
     .leafP [9] [9] (some 5),
     .leafP [28, 29] [28, 29] (some 6),
     .internalP [0, 19, 28, 0, 0, 0] [4, 9, 11, 0, 0, 0],
     .internalP [0] [2]],
    (some 2)⟩
def corT22 : BTree :=
  ⟨3, 5,
    [.leafP [1, 6, 8] [1, 6, 8] (some 10),
     .leafP [16, 0] [16, 0] (some 9),
     .internalP [0, 0, 9, 10] [0, 14, 10, 5],
     .leafP [13, 16, 0, 0] [13, 16, 0, 0] (some 9),
     .leafP [13, 19, 21] [13, 19, 21] (some 11),
     .leafP [10] [10] (some 4),
     .leafP [22] [22] none,
     .internalP [0, 19, 19, 0, 0, 0] [4, 9, 9, 0, 0, 0],
     .internalP [0] [2],
     .leafP [19, 0] [19, 0] (some 14),
     .leafP [9] [9] (some 5),
     .leafP [28, 29] [28, 29] (some 6),
     .internalP [0, 19, 28, 0, 0, 0] [4, 9, 11, 0, 0, 0],
     .internalP [0] [2],
     .leafP [0, 24] [0, 24] (some 11),
     .internalP [0, 19, 28] [4, 9, 11],
     .internalP [0, 11] [2, 15]],
    (some 16)⟩

def splT0 : BTree :=
  ⟨4, 5,
    [],
    none⟩

def splT1 : BTree :=
  ⟨4, 5,
    [.leafP [10] [10] none],
    (some 0)⟩

def splT2 : BTree :=
  ⟨4, 5,
    [.leafP [10, 20] [10, 20] none],
    (some 0)⟩

def splT3 : BTree :=
  ⟨4, 5,
    [.leafP [10, 20, 30] [10, 20, 30] none],
    (some 0)⟩

def splT4 : BTree :=
  ⟨4, 5,
    [.leafP [10, 20, 30, 40] [10, 20, 30, 40] none],
    (some 0)⟩

def splT5 : BTree :=
  ⟨4, 5,
    [.leafP [10, 20] [10, 20] (some 1),
     .leafP [30, 40, 50] [30, 40, 50] none,
     .internalP [0, 30] [0, 1]],
    (some 2)⟩

def splT6 : BTree :=
  ⟨4, 5,
    [.leafP [10, 20] [10, 20] (some 1),
     .leafP [30, 40, 50, 60] [30, 40, 50, 60] none,
     .internalP [0, 30] [0, 1]],
    (some 2)⟩

def splT7 : BTree :=
  ⟨4, 5,
    [.leafP [10, 20] [10, 20] (some 1),
     .leafP [30, 40] [30, 40] (some 3),
     .internalP [0, 30, 50] [0, 1, 3],
     .leafP [50, 60, 70] [50, 60, 70] none],
    (some 2)⟩

def splT8 : BTree :=
  ⟨4, 5,
    [.leafP [10, 20] [10, 20] (some 1),
     .leafP [30, 40] [30, 40] (some 3),
     .internalP [0, 30, 50] [0, 1, 3],
     .leafP [50, 60, 70, 80] [50, 60, 70, 80] none],
    (some 2)⟩

def splT9 : BTree :=
  ⟨4, 5,
    [.leafP [10, 20] [10, 20] (some 1),
     .leafP [30, 40] [30, 40] (some 3),
     .internalP [0, 30, 50, 70] [0, 1, 3, 4],
     .leafP [50, 60] [50, 60] (some 4),
     .leafP [70, 80, 90] [70, 80, 90] none],
    (some 2)⟩

def splT10 : BTree :=
  ⟨4, 5,
    [.leafP [10, 20] [10, 20] (some 1),
     .leafP [30, 40] [30, 40] (some 3),
     .internalP [0, 30, 50, 70] [0, 1, 3, 4],
     .leafP [50, 60] [50, 60] (some 4),
     .leafP [70, 80, 90, 100] [70, 80, 90, 100] none],
    (some 2)⟩

def splT11 : BTree :=
  ⟨4, 5,
    [.leafP [10, 20] [10, 20] (some 1),
     .leafP [30, 40] [30, 40] (some 3),
     .internalP [0, 30, 50, 70, 90] [0, 1, 3, 4, 5],
     .leafP [50, 60] [50, 60] (some 4),
     .leafP [70, 80] [70, 80] (some 5),
     .leafP [90, 100, 110] [90, 100, 110] none],
    (some 2)⟩

def splT12 : BTree :=
  ⟨4, 5,
    [.leafP [10, 20] [10, 20] (some 1),
     .leafP [30, 40] [30, 40] (some 3),
     .internalP [0, 30, 50, 70, 90] [0, 1, 3, 4, 5],
     .leafP [50, 52, 60] [50, 52, 60] (some 4),
     .leafP [70, 80] [70, 80] (some 5),
     .leafP [90, 100, 110] [90, 100, 110] none],
    (some 2)⟩

def splT13 : BTree :=
  ⟨4, 5,
    [.leafP [10, 20] [10, 20] (some 1),
     .leafP [30, 40] [30, 40] (some 3),
     .internalP [0, 30, 50, 70, 90] [0, 1, 3, 4, 5],
     .leafP [50, 52, 54, 60] [50, 52, 54, 60] (some 4),
     .leafP [70, 80] [70, 80] (some 5),
     .leafP [90, 100, 110] [90, 100, 110] none],
    (some 2)⟩

def splT14 : BTree :=
  ⟨4, 5,
    [.leafP [10, 20] [10, 20] (some 1),
     .leafP [30, 40] [30, 40] (some 3),
     .internalP [0, 30, 50] [0, 1, 3],
     .leafP [50, 52] [50, 52] (some 6),
     .leafP [70, 80] [70, 80] (some 5),
     .leafP [90, 100, 110] [90, 100, 110] none,
     .leafP [54, 56, 60] [54, 56, 60] (some 4),
     .internalP [0, 70, 90] [6, 4, 5],
     .internalP [0, 54] [2, 7]],
    (some 8)⟩

def scT0 : BTree :=
  ⟨4, 4,
    [],
    none⟩

def scT1 : BTree :=
  ⟨4, 4,
    [.leafP [1] [1] none],
    (some 0)⟩

def scT2 : BTree :=
  ⟨4, 4,
    [.leafP [1, 2] [1, 2] none],
    (some 0)⟩

def scT3 : BTree :=
  ⟨4, 4,
    [.leafP [1, 2, 3] [1, 2, 3] none],
    (some 0)⟩

def scT4 : BTree :=
  ⟨4, 4,
    [.leafP [1, 2, 3, 4] [1, 2, 3, 4] none],
    (some 0)⟩

def scT5 : BTree :=
  ⟨4, 4,
    [.leafP [1, 2] [1, 2] (some 1),
     .leafP [3, 4, 5] [3, 4, 5] none,
     .internalP [0, 3] [0, 1]],
    (some 2)⟩

def scT6 : BTree :=
  ⟨4, 4,
    [.leafP [1, 2] [1, 2] (some 1),
     .leafP [3, 4, 5, 6] [3, 4, 5, 6] none,
     .internalP [0, 3] [0, 1]],
    (some 2)⟩

def scT7 : BTree :=
  ⟨4, 4,
    [.leafP [1, 2] [1, 2] (some 1),
     .leafP [3, 4] [3, 4] (some 3),
     .internalP [0, 3, 5] [0, 1, 3],
     .leafP [5, 6, 7] [5, 6, 7] none],
    (some 2)⟩

def scT8 : BTree :=
  ⟨4, 4,
    [.leafP [2, 3, 4] [2, 3, 4] (some 3),
     .leafP [3, 4, 0, 0] [3, 4, 0, 0] (some 3),
     .internalP [0, 5] [0, 3],
     .leafP [5, 6, 7] [5, 6, 7] none],
    (some 2)⟩

def scT9 : BTree :=
  ⟨4, 4,
    [.leafP [3, 4] [3, 4] (some 3),
     .leafP [3, 4, 0, 0] [3, 4, 0, 0] (some 3),
     .internalP [0, 5] [0, 3],
     .leafP [5, 6, 7] [5, 6, 7] none],
    (some 2)⟩

def scT10 : BTree :=
  ⟨4, 4,
    [.leafP [4, 5] [4, 5] (some 3),
     .leafP [3, 4, 0, 0] [3, 4, 0, 0] (some 3),
     .internalP [0, 6] [0, 3],
     .leafP [6, 7] [6, 7] none],
    (some 2)⟩

def scT11 : BTree :=
  ⟨4, 4,
    [.leafP [5, 6, 7] [5, 6, 7] none,
     .leafP [3, 4, 0, 0] [3, 4, 0, 0] (some 3),
     .internalP [0] [0],
     .leafP [6, 7, 0, 0] [6, 7, 0, 0] none],
    (some 0)⟩

def scT12 : BTree :=
  ⟨4, 4,
    [.leafP [6, 7] [6, 7] none,
     .leafP [3, 4, 0, 0] [3, 4, 0, 0] (some 3),
     .internalP [0] [0],
     .leafP [6, 7, 0, 0] [6, 7, 0, 0] none],
    (some 0)⟩

def scT13 : BTree :=
  ⟨4, 4,
    [.leafP [7] [7] none,
     .leafP [3, 4, 0, 0] [3, 4, 0, 0] (some 3),
     .internalP [0] [0],
     .leafP [6, 7, 0, 0] [6, 7, 0, 0] none],
    (some 0)⟩

def scT14 : BTree :=
  ⟨4, 4,
    [.leafP [] [] none,
     .leafP [3, 4, 0, 0] [3, 4, 0, 0] (some 3),
     .internalP [0] [0],
     .leafP [6, 7, 0, 0] [6, 7, 0, 0] none],
    none⟩

def borT0 : BTree :=
  ⟨4, 4,
    [.leafP [1, 2] [1, 2] (some 1),
     .leafP [3, 4, 5] [3, 4, 5] none,
     .internalP [0, 3] [0, 1]],
    (some 2)⟩

def borT1 : BTree :=
  ⟨4, 4,
    [.leafP [2, 3] [2, 3] (some 1),
     .leafP [4, 5] [4, 5] none,
     .internalP [0, 4] [0, 1]],
    (some 2)⟩



/-!  Concrete Trie scenario states. -/


def keyAbc : List Char := ['a', 'b', 'c']
def keyAbcd : List Char := ['a', 'b', 'c', 'd']
def keyAb : List Char := ['a', 'b']
def keyAx : List Char := ['a', 'x']

def trieA : TrieNode := (trieInsert Trie.empty keyAbc (.vInt 7)).2
def trieAB : TrieNode := (trieInsert trieA keyAbcd (.vInt 9)).2


/-!  Single-step evaluations of the runs above. -/

theorem bugS0 : applyOp bugT0 (.ins 1 1) = some bugT1 := by simp [bugT0, bugT1, List.findIdx?, List.eraseIdx, List.dropLast]
theorem bugS1 : applyOp bugT1 (.ins 2 2) = some bugT2 := by simp [bugT1, bugT2, List.findIdx?, List.eraseIdx, List.dropLast]
theorem bugS2 : applyOp bugT2 (.ins 3 3) = some bugT3 := by simp [bugT2, bugT3, List.findIdx?, List.eraseIdx, List.dropLast]
theorem bugS3 : applyOp bugT3 (.ins 4 4) = some bugT4 := by simp [bugT3, bugT4, List.findIdx?, List.eraseIdx, List.dropLast]
theorem bugS4 : applyOp bugT4 (.ins 5 5) = some bugT5 := by simp [bugT4, bugT5, List.findIdx?, List.eraseIdx, List.dropLast]
theorem bugS5 : applyOp bugT5 (.ins 6 6) = some bugT6 := by simp [bugT5, bugT6, List.findIdx?, List.eraseIdx, List.dropLast]
theorem bugS6 : applyOp bugT6 (.ins 7 7) = some bugT7 := by simp [bugT6, bugT7, List.findIdx?, List.eraseIdx, List.dropLast]
theorem bugS7 : applyOp bugT7 (.ins 0 0) = some bugT8 := by simp [bugT7, bugT8, List.findIdx?, List.eraseIdx, List.dropLast]
theorem bugS8 : applyOp bugT8 (.rem 7) = some bugT9 := by simp [bugT8, bugT9, List.findIdx?, List.eraseIdx, List.dropLast]
theorem bugS9 : applyOp bugT9 (.rem 6) = some bugT10 := by simp [bugT9, bugT10, List.findIdx?, List.eraseIdx, List.dropLast]
theorem bugS10 : applyOp bugT10 (.rem 4) = some bugT11 := by simp [bugT10, bugT11, List.findIdx?, List.eraseIdx, List.dropLast]
theorem bugS11 : applyOp bugT11 (.rem 4) = some bugT12 := by simp [bugT11, bugT12, List.findIdx?, List.eraseIdx, List.dropLast]
theorem bugS12 : applyOp bugT12 (.rem 3) = some bugT13 := by simp [bugT12, bugT13, List.findIdx?, List.eraseIdx, List.dropLast]
theorem bugS13 : applyOp bugT13 (.rem 2) = some bugT14 := by simp [bugT13, bugT14, List.findIdx?, List.eraseIdx, List.dropLast]
theorem bugS14 : applyOp bugT14 (.rem 1) = some bugT15 := by simp [bugT14, bugT15, List.findIdx?, List.eraseIdx, List.dropLast]
theorem bugS15 : applyOp bugT15 (.rem 0) = some bugT16 := by simp [bugT15, bugT16, List.findIdx?, List.eraseIdx, List.dropLast]
theorem corS0 : applyOp corT0 (.ins 15 15) = some corT1 := by simp [corT0, corT1, List.findIdx?, List.eraseIdx, List.dropLast]
theorem corS1 : applyOp corT1 (.ins 1 1) = some corT2 := by simp [corT1, corT2, List.findIdx?, List.eraseIdx, List.dropLast]
theorem corS2 : applyOp corT2 (.ins 13 13) = some corT3 := by simp [corT2, corT3, List.findIdx?, List.eraseIdx, List.dropLast]
theorem corS3 : applyOp corT3 (.ins 11 11) = some corT4 := by simp [corT3, corT4, List.findIdx?, List.eraseIdx, List.dropLast]
theorem corS4 : applyOp corT4 (.ins 22 22) = some corT5 := by simp [corT4, corT5, List.findIdx?, List.eraseIdx, List.dropLast]
theorem corS5 : applyOp corT5 (.ins 6 6) = some corT6 := by simp [corT5, corT6, List.findIdx?, List.eraseIdx, List.dropLast]
theorem corS6 : applyOp corT6 (.ins 16 16) = some corT7 := by simp [corT6, corT7, List.findIdx?, List.eraseIdx, List.dropLast]
theorem corS7 : applyOp corT7 (.ins 10 10) = some corT8 := by simp [corT7, corT8, List.findIdx?, List.eraseIdx, List.dropLast]
theorem corS8 : applyOp corT8 (.ins 9 9) = some corT9 := by simp [corT8, corT9, List.findIdx?, List.eraseIdx, List.dropLast]
theorem corS9 : applyOp corT9 (.ins 19 19) = some corT10 := by simp [corT9, corT10, List.findIdx?, List.eraseIdx, List.dropLast]
theorem corS10 : applyOp corT10 (.ins 18 18) = some corT11 := by simp [corT10, corT11, List.findIdx?, List.eraseIdx, List.dropLast]
theorem corS11 : applyOp corT11 (.ins 8 8) = some corT12 := by simp [corT11, corT12, List.findIdx?, List.eraseIdx, List.dropLast]
theorem corS12 : applyOp corT12 (.rem 15) = some corT13 := by simp [corT12, corT13, List.findIdx?, List.eraseIdx, List.dropLast]
theorem corS13 : applyOp corT13 (.rem 18) = some corT14 := by simp [corT13, corT14, List.findIdx?, List.eraseIdx, List.dropLast]
theorem corS14 : applyOp corT14 (.rem 12) = some corT15 := by simp [corT14, corT15, List.findIdx?, List.eraseIdx, List.dropLast]
theorem corS15 : applyOp corT15 (.ins 21 21) = some corT16 := by simp [corT15, corT16, List.findIdx?, List.eraseIdx, List.dropLast]
theorem corS16 : applyOp corT16 (.ins 28 28) = some corT17 := by simp [corT16, corT17, List.findIdx?, List.eraseIdx, List.dropLast]
theorem corS17 : applyOp corT17 (.rem 16) = some corT18 := by simp [corT17, corT18, List.findIdx?, List.eraseIdx, List.dropLast]
theorem corS18 : applyOp corT18 (.ins 29 29) = some corT19 := by simp [corT18, corT19, List.findIdx?, List.eraseIdx, List.dropLast]
theorem corS19 : applyOp corT19 (.rem 11) = some corT20 := by simp [corT19, corT20, List.findIdx?, List.eraseIdx, List.dropLast]
theorem corS20 : applyOp corT20 (.rem 21) = some corT21 := by simp [corT20, corT21, List.findIdx?, List.eraseIdx, List.dropLast]
theorem corS21 : applyOp corT21 (.ins 24 24) = some corT22 := by simp [corT21, corT22, List.findIdx?, List.eraseIdx, List.dropLast]
theorem splS0 : applyOp splT0 (.ins 10 10) = some splT1 := by simp [splT0, splT1, List.findIdx?, List.eraseIdx, List.dropLast]
theorem splS1 : applyOp splT1 (.ins 20 20) = some splT2 := by simp [splT1, splT2, List.findIdx?, List.eraseIdx, List.dropLast]
theorem splS2 : applyOp splT2 (.ins 30 30) = some splT3 := by simp [splT2, splT3, List.findIdx?, List.eraseIdx, List.dropLast]
theorem splS3 : applyOp splT3 (.ins 40 40) = some splT4 := by simp [splT3, splT4, List.findIdx?, List.eraseIdx, List.dropLast]
theorem splS4 : applyOp splT4 (.ins 50 50) = some splT5 := by simp [splT4, splT5, List.findIdx?, List.eraseIdx, List.dropLast]
theorem splS5 : applyOp splT5 (.ins 60 60) = some splT6 := by simp [splT5, splT6, List.findIdx?, List.eraseIdx, List.dropLast]
theorem splS6 : applyOp splT6 (.ins 70 70) = some splT7 := by simp [splT6, splT7, List.findIdx?, List.eraseIdx, List.dropLast]
theorem splS7 : applyOp splT7 (.ins 80 80) = some splT8 := by simp [splT7, splT8, List.findIdx?, List.eraseIdx, List.dropLast]
theorem splS8 : applyOp splT8 (.ins 90 90) = some splT9 := by simp [splT8, splT9, List.findIdx?, List.eraseIdx, List.dropLast]
theorem splS9 : applyOp splT9 (.ins 100 100) = some splT10 := by simp [splT9, splT10, List.findIdx?, List.eraseIdx, List.dropLast]
theorem splS10 : applyOp splT10 (.ins 110 110) = some splT11 := by simp [splT10, splT11, List.findIdx?, List.eraseIdx, List.dropLast]
theorem splS11 : applyOp splT11 (.ins 52 52) = some splT12 := by simp [splT11, splT12, List.findIdx?, List.eraseIdx, List.dropLast]
theorem splS12 : applyOp splT12 (.ins 54 54) = some splT13 := by simp [splT12, splT13, List.findIdx?, List.eraseIdx, List.dropLast]
theorem splS13 : applyOp splT13 (.ins 56 56) = some splT14 := by simp [splT13, splT14, List.findIdx?, List.eraseIdx, List.dropLast]
theorem scS0 : applyOp scT0 (.ins 1 1) = some scT1 := by simp [scT0, scT1, List.findIdx?, List.eraseIdx, List.dropLast]
theorem scS1 : applyOp scT1 (.ins 2 2) = some scT2 := by simp [scT1, scT2, List.findIdx?, List.eraseIdx, List.dropLast]
theorem scS2 : applyOp scT2 (.ins 3 3) = some scT3 := by simp [scT2, scT3, List.findIdx?, List.eraseIdx, List.dropLast]
theorem scS3 : applyOp scT3 (.ins 4 4) = some scT4 := by simp [scT3, scT4, List.findIdx?, List.eraseIdx, List.dropLast]
theorem scS4 : applyOp scT4 (.ins 5 5) = some scT5 := by simp [scT4, scT5, List.findIdx?, List.eraseIdx, List.dropLast]
theorem scS5 : applyOp scT5 (.ins 6 6) = some scT6 := by simp [scT5, scT6, List.findIdx?, List.eraseIdx, List.dropLast]
theorem scS6 : applyOp scT6 (.ins 7 7) = some scT7 := by simp [scT6, scT7, List.findIdx?, List.eraseIdx, List.dropLast]
theorem scS7 : applyOp scT7 (.rem 1) = some scT8 := by simp [scT7, scT8, List.findIdx?, List.eraseIdx, List.dropLast]
theorem scS8 : applyOp scT8 (.rem 2) = some scT9 := by simp [scT8, scT9, List.findIdx?, List.eraseIdx, List.dropLast]
theorem scS9 : applyOp scT9 (.rem 3) = some scT10 := by simp [scT9, scT10, List.findIdx?, List.eraseIdx, List.dropLast]
theorem scS10 : applyOp scT10 (.rem 4) = some scT11 := by simp [scT10, scT11, List.findIdx?, List.eraseIdx, List.dropLast]
theorem scS11 : applyOp scT11 (.rem 5) = some scT12 := by simp [scT11, scT12, List.findIdx?, List.eraseIdx, List.dropLast]
theorem scS12 : applyOp scT12 (.rem 6) = some scT13 := by simp [scT12, scT13, List.findIdx?, List.eraseIdx, List.dropLast]
theorem scS13 : applyOp scT13 (.rem 7) = some scT14 := by simp [scT13, scT14, List.findIdx?, List.eraseIdx, List.dropLast]
theorem borS0 : applyOp borT0 (.rem 1) = some borT1 := by simp [borT0, borT1, List.findIdx?, List.eraseIdx, List.dropLast]


/-!  Helper lemmas and claim theorems. -/


/-!  Helper equations for `getValue` and `insert` at a fixed descent. -/

theorem getValue_root_none (t : BTree) (k : Int) (h : t.root = none) :
    getValue t k = [] := by
  rw [getValue.eq_def, h]

theorem getValue_sl_none (t : BTree) (k : Int) (r : Nat)
    (hroot : t.root = some r) (hsl : searchLeaf t k r = none) :
    getValue t k = [] := by
  rw [getValue.eq_def, hroot]
  simp only [hsl]

theorem getValue_pg_none (t : BTree) (k : Int) (r : Nat) (path : List (Nat × Nat)) (pid : Nat)
    (hroot : t.root = some r) (hsl : searchLeaf t k r = some (path, pid))
    (hpg : t.pages.get? pid = none) :
    getValue t k = [] := by
  rw [getValue.eq_def, hroot]
  simp only [hsl, hpg]

theorem getValue_pg_internal (t : BTree) (k : Int) (r : Nat) (path : List (Nat × Nat))
    (pid : Nat) (ks : List Int) (cs : List Nat)
    (hroot : t.root = some r) (hsl : searchLeaf t k r = some (path, pid))
    (hpg : t.pages.get? pid = some (.internalP ks cs)) :
    getValue t k = [] := by
  rw [getValue.eq_def, hroot]
  simp only [hsl, hpg]

theorem getValue_leaf_eq (t : BTree) (k : Int) (r : Nat) (path : List (Nat × Nat)) (pid : Nat)
    (ks vs : List Int) (nx : Option Nat)
    (hroot : t.root = some r) (hsl : searchLeaf t k r = some (path, pid))
    (hpg : t.pages.get? pid = some (.leafP ks vs nx)) :
    getValue t k = scanKV k ks vs := by
  rw [getValue.eq_def, hroot]
  simp only [hsl, hpg]

/-- The duplicate-reject branch of `Insert`: the descent found the key in the
target leaf, so the operation reports `false` and returns with every page as
it was. -/
theorem insert_duplicate (t : BTree) (k v' : Int) (r : Nat) (path : List (Nat × Nat))
    (pid : Nat) (ks vs : List Int) (nx : Option Nat)
    (hroot : t.root = some r) (hsl : searchLeaf t k r = some (path, pid))
    (hpg : t.pages.get? pid = some (.leafP ks vs nx)) (hdup : hasKey k ks = true) :
    insert t k v' = some (false, t) := by
  rw [insert.eq_def, hroot]
  simp only [hsl, hpg, hdup, if_true]

/-- A successful scan implies the duplicate check fires. -/
theorem scanKV_hasKey (k : Int) :
    ∀ (ks vs : List Int) (v : Int) (l : List Int),
      scanKV k ks vs = v :: l → hasKey k ks = true := by
  intro ks
  induction ks with
  | nil => intro vs v l h; simp [scanKV] at h
  | cons k0 ks ih =>
    intro vs v l h
    cases vs with
    | nil => simp [scanKV] at h
    | cons v0 vs =>
      by_cases hk : k = k0
      · simp [hasKey, hk]
      · simp only [scanKV, if_neg hk] at h
        simp only [hasKey, if_neg hk]
        exact ih vs v l h

/-- Reachability is preserved by a completed operation. -/
theorem Reach.ofApplyOp {lm im : Nat} {t t' : BTree} (h : Reach lm im t) (op : Op)
    (happ : applyOp t op = some t') : Reach lm im t' := by
  cases op with
  | ins k v =>
    simp only [applyOp] at happ
    cases hins : insert t k v with
    | none => rw [hins] at happ; simp at happ
    | some p =>
      rw [hins] at happ
      simp only [Option.map_some'] at happ
      injection happ with happ
      exact Reach.ins h (by rw [hins]; subst happ; rfl)
  | rem k => exact Reach.rem h happ

/-- Reachability is preserved by a completed operation sequence. -/
theorem Reach.ofApplyOps {lm im : Nat} {t' : BTree} :
    ∀ (ops : List Op) (t : BTree), Reach lm im t → applyOps t ops = some t' →
      Reach lm im t' := by
  intro ops
  induction ops with
  | nil => intro t h happ; simp only [applyOps] at happ; injection happ with h'; rwa [h'] at h
  | cons op ops ih =>
    intro t h happ
    simp only [applyOps] at happ
    cases hstep : applyOp t op with
    | none => rw [hstep] at happ; simp at happ
    | some t1 =>
      rw [hstep] at happ
      exact ih t1 (h.ofApplyOp op hstep) happ

/-- C2: in every reachable tree state in which key `k` is present with value
`v` (the point lookup returns exactly `[v]`), `insert (k, v')` returns
`false` and performs no mutation: the resulting state is the very same
tree, so a subsequent lookup still returns `v` and the structure is
unchanged. -/
theorem C2_duplicate_insert_no_mutation {lm im : Nat} {t : BTree} {k v v' : Int}
    (_hre : Reach lm im t) (hget : getValue t k = [v]) :
    insert t k v' = some (false, t) ∧ getValue t k = [v] := by
  refine ⟨?_, hget⟩
  cases hroot : t.root with
  | none => rw [getValue_root_none t k hroot] at hget; exact absurd hget (by simp)
  | some r =>
    cases hsl : searchLeaf t k r with
    | none => rw [getValue_sl_none t k r hroot hsl] at hget; exact absurd hget (by simp)
    | some pr =>
      obtain ⟨path, pid⟩ := pr
      cases hpg : t.pages.get? pid with
      | none =>
        rw [getValue_pg_none t k r path pid hroot hsl hpg] at hget
        exact absurd hget (by simp)
      | some pg =>
        cases pg with
        | internalP ks cs =>
          rw [getValue_pg_internal t k r path pid ks cs hroot hsl hpg] at hget
          exact absurd hget (by simp)
        | leafP ks vs nx =>
          rw [getValue_leaf_eq t k r path pid ks vs nx hroot hsl hpg] at hget
          exact insert_duplicate t k v' r path pid ks vs nx hroot hsl hpg
            (scanKV_hasKey k ks vs v [] hget)

/-- Witness for C2 at a concrete reachable state: the five-key tree of the
leaf-split scenario holds key 3; inserting it again with another RID
reports `false` and leaves the tree untouched. -/
theorem C2_duplicate_insert_no_mutation_witness :
    insert borT0 3 999 = some (false, borT0) ∧ getValue borT0 3 = [3] := by
  have h0 : Reach 4 4 scT0 := Reach.openT
  have hre : Reach 4 4 borT0 :=
    ((((h0.ofApplyOp _ scS0).ofApplyOp _ scS1).ofApplyOp _ scS2).ofApplyOp _
      scS3).ofApplyOp _ scS4
  exact C2_duplicate_insert_no_mutation hre (by simp [borT0])


/-- C9: the concrete scenario.  `Remove "abc"` on a terminal with children
returns `true`, and `GetValue "abcd"` still returns 9; `Remove` of a
missing path or an unmarked node returns `false` with no change.  But the
source moves the `unique_ptr` itself when detaching the terminal, so the
same `TrieNodeWithValue` goes back into the map: the tree is literally
unchanged and `GetValue<int>("abc")` still succeeds with 7, where the claim
requires the terminal marking and value to be cleared and the lookup to
fail. -/
theorem C9_trie_remove_keeps_terminal_bug :
    (trieInsert Trie.empty keyAbc (.vInt 7)).1 = true ∧
    (trieInsert trieA keyAbcd (.vInt 9)).1 = true ∧
    trieRemove trieAB keyAbc = some (true, trieAB) ∧
    trieGet trieAB keyAbcd .tInt = (true, .vInt 9) ∧
    trieGet trieAB keyAbc .tInt = (true, .vInt 7) ∧
    trieRemove trieAB keyAx = some (false, trieAB) ∧
    trieRemove trieAB keyAb = some (false, trieAB) := by
  refine ⟨?_, ?_, ?_, ?_, ?_, ?_, ?_⟩ <;>
    simp [trieA, trieAB, keyAbc, keyAbcd, keyAb, keyAx]

/-- C10: `GetValue<T>` returns `success = false` and a default-constructed
value whenever the key is empty, the walk dies, the reached node is not
marked terminal, or the stored value's runtime type differs from `T`; when
the terminal exists and the type matches it returns the stored value with
`success = true`.  Concretely, after `Insert("abc", 7)`,
`GetValue<string>("abc")` fails while `GetValue<int>("abc")` yields 7. -/
theorem C10_trie_getvalue_contract :
    (∀ (root : TrieNode) (key : List Char) (tag : TTag),
      (key = [] → trieGet root key tag = (false, tag.defaultVal)) ∧
      (key ≠ [] → trieWalk root key = none → trieGet root key tag = (false, tag.defaultVal)) ∧
      (∀ nd, key ≠ [] → trieWalk root key = some nd → nd.isEnd = false →
        trieGet root key tag = (false, tag.defaultVal)) ∧
      (∀ nd v, key ≠ [] → trieWalk root key = some nd → nd.isEnd = true → nd.val = some v →
        v.tag ≠ tag → trieGet root key tag = (false, tag.defaultVal)) ∧
      (∀ nd v, key ≠ [] → trieWalk root key = some nd → nd.isEnd = true → nd.val = some v →
        v.tag = tag → trieGet root key tag = (true, v))) ∧
    trieGet trieA keyAbc .tStr = (false, .vStr "") ∧
    trieGet trieA keyAb .tInt = (false, .vInt 0) ∧
    trieGet trieA keyAbc .tInt = (true, .vInt 7) := by
  refine ⟨?_, ?_, ?_, ?_⟩
  · intro root key tag
    refine ⟨?_, ?_, ?_, ?_, ?_⟩
    · intro hk; subst hk; rfl
    · intro hk hw
      cases key with
      | nil => exact absurd rfl hk
      | cons c rest => rw [trieGet.eq_def]; simp only [hw]
    · intro nd hk hw hend
      cases key with
      | nil => exact absurd rfl hk
      | cons c rest => rw [trieGet.eq_def]; simp only [hw, hend]; simp
    · intro nd v hk hw hend hval htag
      cases key with
      | nil => exact absurd rfl hk
      | cons c rest =>
        rw [trieGet.eq_def]
        simp only [hw, hend, hval]
        simp only [TVal.tag] at htag
        simp [htag]
    · intro nd v hk hw hend hval htag
      cases key with
      | nil => exact absurd rfl hk
      | cons c rest =>
        rw [trieGet.eq_def]
        simp only [hw, hend, hval]
        simp only [TVal.tag] at htag
        simp [htag]
  · simp [trieA, keyAbc]
  · simp [trieA, keyAb]
  · simp [trieA, keyAbc]

/-- Witness for C10: the empty-key clause and the success clause of the
contract, instantiated at concrete tries. -/
theorem C10_trie_getvalue_contract_witness :
    trieGet Trie.empty [] .tInt = (false, .vInt 0) ∧
    trieGet trieA keyAbc .tInt = (true, .vInt 7) := by
  constructor
  · exact ((C10_trie_getvalue_contract.1 Trie.empty [] .tInt).1) rfl
  · exact ((C10_trie_getvalue_contract.1 trieA keyAbc .tInt).2.2.2.2)
      (.mk 'c' true (some (.vInt 7)) []) (.vInt 7)
      (by simp [keyAbc]) (by simp [trieA, keyAbc]) rfl rfl rfl




/-- `getD` is `headD` of the dropped prefix. -/
theorem getD_eq_headD_drop (l : List Int) (n : Nat) (d : Int) :
    l.getD n d = (l.drop n).headD d := by
  induction l generalizing n with
  | nil => simp
  | cons x xs ih =>
    cases n with
    | zero => simp
    | succ n => simp only [List.getD_cons_succ, List.drop_succ_cons]; exact ih n

/-- C4: the leaf-split step.  For a leaf of size `m` at capacity, with
`mid = (m+1)/2` (the ceiling of `m/2`), slots `[mid, m)` move to the new
leaf at slots `[0, m-mid)`, the old leaf's size becomes `mid`, the new leaf
is threaded into the leaf list right after the old one (old's next becomes
the new page, the new leaf inherits the old forward pointer), and the
promoted separator is the new leaf's first key.  Concretely, inserting
1..5 in order with both size limits 4 yields leaves `[1,2]` and `[3,4,5]`
linked left to right under an internal root with key 3 at slot 1, child 0
the left leaf and child 1 the right leaf. -/
theorem C4_leaf_split_shape :
    (∀ (keys vals : List Int) (next : Option Nat) (np : Nat),
      2 ≤ keys.length →
      (leafSplitParts keys vals next np).oldKeys = keys.take ((keys.length + 1) / 2) ∧
      (leafSplitParts keys vals next np).oldVals = vals.take ((keys.length + 1) / 2) ∧
      (leafSplitParts keys vals next np).oldKeys.length = (keys.length + 1) / 2 ∧
      (∀ i, (leafSplitParts keys vals next np).newKeys[i]? =
        keys[(keys.length + 1) / 2 + i]?) ∧
      (∀ i, (leafSplitParts keys vals next np).newVals[i]? =
        vals[(keys.length + 1) / 2 + i]?) ∧
      (leafSplitParts keys vals next np).newKeys.length =
        keys.length - (keys.length + 1) / 2 ∧
      (leafSplitParts keys vals next np).oldNext = some np ∧
      (leafSplitParts keys vals next np).newNext = next ∧
      (leafSplitParts keys vals next np).sep =
        (leafSplitParts keys vals next np).newKeys.headD 0) ∧
    scT0 = BTree.openTree 4 4 ∧
    applyOps scT0 [.ins 1 1, .ins 2 2, .ins 3 3, .ins 4 4, .ins 5 5] = some scT5 ∧
    scT5 = ⟨4, 4, [.leafP [1, 2] [1, 2] (some 1), .leafP [3, 4, 5] [3, 4, 5] none,
                   .internalP [0, 3] [0, 1]], some 2⟩ := by
  refine ⟨?_, rfl, ?_, rfl⟩
  · intro keys vals next np h2
    refine ⟨rfl, rfl, ?_, ?_, ?_, ?_, rfl, rfl, ?_⟩
    · simp only [leafSplitParts]
      rw [List.length_take]
      omega
    · intro i
      simp only [leafSplitParts]
      rw [List.getElem?_drop]
    · intro i
      simp only [leafSplitParts]
      rw [List.getElem?_drop]
    · simp only [leafSplitParts, List.length_drop]
    · simp only [leafSplitParts]
      exact getD_eq_headD_drop keys ((keys.length + 1) / 2) 0
  · simp only [applyOps, scS0, scS1, scS2, scS3, scS4]

/-- Witness for C4's general clause at the concrete capacity-4 leaf. -/
theorem C4_leaf_split_shape_witness :
    (leafSplitParts [1, 2, 3, 4] [1, 2, 3, 4] none 1).oldKeys = [1, 2] ∧
    (leafSplitParts [1, 2, 3, 4] [1, 2, 3, 4] none 1).sep =
      (leafSplitParts [1, 2, 3, 4] [1, 2, 3, 4] none 1).newKeys.headD 0 := by
  have h := (C4_leaf_split_shape.1 [1, 2, 3, 4] [1, 2, 3, 4] none 1 (by norm_num))
  exact ⟨by rw [h.1]; rfl, h.2.2.2.2.2.2.2.2⟩




/-- The leftmost under-full leaf borrows from its right sibling: append the
sibling's first entry, shift the sibling left and decrement it, and set the
parent's key at the sibling's slot to the sibling's new first key. -/
theorem c6_right_borrow (t : BTree) (parentPid leafPid : Nat) (k : Int)
    (pk : List Int) (pc : List Nat) (lk lv : List Int) (ln : Option Nat)
    (nk nv : List Int) (nn : Option Nat)
    (hpar : getInternal? t parentPid = some (pk, pc))
    (hleaf : getLeaf? t leafPid = some (lk, lv, ln))
    (hnext : getLeaf? t (pc.getD 1 0) = some (nk, nv, nn))
    (hlen : 2 ≤ pk.length)
    (hborrow : minSize t.leafMax + 1 ≤ nk.length) :
    removeLeafRebalance t parentPid 0 leafPid k [] =
      some (((t.setPage leafPid (.leafP (lk ++ [nk.headD 0]) (lv ++ [nv.headD 0]) ln)).setPage
        (pc.getD 1 0) (.leafP (nk.drop 1) (nv.drop 1) nn)).setPage parentPid
        (.internalP (pk.set 1 ((nk.drop 1).headD 0)) pc)) := by
  have h1 : ¬((0 : Nat) = pk.length - 1) := by omega
  have h2 : ¬(nk.length - 1 < minSize t.leafMax) := by omega
  rw [← getD_eq_headD_drop nk 1 0]
  simp only [List.getD_eq_getElem?_getD] at hnext
  simp only [minSize] at h2
  simp [hpar, hleaf, hnext, h1, h2, ancestorUpdate, -getInternal?, -getLeaf?]

/-- With both siblings present, a tie (or a bigger left sibling) donates
from the left: the left sibling loses its last entry, the right sibling is
untouched. -/
theorem c6_donor_left (t : BTree) (parentPid pos leafPid : Nat) (k : Int)
    (pk : List Int) (pc : List Nat) (lk lv : List Int) (ln : Option Nat)
    (pvK pvV : List Int) (pvN : Option Nat) (nk nv : List Int) (nn : Option Nat)
    (hpar : getInternal? t parentPid = some (pk, pc))
    (hleaf : getLeaf? t leafPid = some (lk, lv, ln))
    (hprev : getLeaf? t (pc.getD (pos - 1) 0) = some (pvK, pvV, pvN))
    (hnext : getLeaf? t (pc.getD (pos + 1) 0) = some (nk, nv, nn))
    (hpos0 : 0 < pos) (hposR : pos < pk.length - 1)
    (htie : nk.length ≤ pvK.length)
    (hborrow : minSize t.leafMax + 1 ≤ pvK.length) :
    removeLeafRebalance t parentPid pos leafPid k [] =
      some (((t.setPage leafPid (.leafP
          (stealPrevLeafArr (pvK.getD (pvK.length - 1) 0) 0 lk)
          (stealPrevLeafArr (pvV.getD (pvV.length - 1) 0) 0 lv) ln)).setPage
        (pc.getD (pos - 1) 0) (.leafP pvK.dropLast pvV.dropLast pvN)).setPage parentPid
        (.internalP (pk.set pos (pvK.getD (pvK.length - 1) 0)) pc)) := by
  simp only [minSize] at hborrow
  have h1 : ¬(pos = pk.length - 1) := by omega
  have h0 : ¬(pos = 0) := by omega
  have h2 : ¬((nk.length ⊔ pvK.length) - 1 < (t.leafMax + 1) / 2) := by
    simp only [Nat.max_def]
    split <;> omega
  have h3 : ¬(pvK.length - 1 < (t.leafMax + 1) / 2) := by omega
  simp only [List.getD_eq_getElem?_getD] at hprev hnext
  simp [hpar, hleaf, hprev, hnext, h1, h0, h2, h3, htie, hpos0, ancestorUpdate,
    -getInternal?, -getLeaf?]

/-- With both siblings present and the right strictly bigger, the donation
comes from the right sibling. -/
theorem c6_donor_right (t : BTree) (parentPid pos leafPid : Nat) (k : Int)
    (pk : List Int) (pc : List Nat) (lk lv : List Int) (ln : Option Nat)
    (pvK pvV : List Int) (pvN : Option Nat) (nk nv : List Int) (nn : Option Nat)
    (hpar : getInternal? t parentPid = some (pk, pc))
    (hleaf : getLeaf? t leafPid = some (lk, lv, ln))
    (hprev : getLeaf? t (pc.getD (pos - 1) 0) = some (pvK, pvV, pvN))
    (hnext : getLeaf? t (pc.getD (pos + 1) 0) = some (nk, nv, nn))
    (hpos0 : 0 < pos) (hposR : pos < pk.length - 1)
    (hbig : pvK.length < nk.length)
    (hborrow : minSize t.leafMax + 1 ≤ nk.length) :
    removeLeafRebalance t parentPid pos leafPid k [] =
      some (((t.setPage leafPid (.leafP (lk ++ [nk.headD 0]) (lv ++ [nv.headD 0]) ln)).setPage
        (pc.getD (pos + 1) 0) (.leafP (nk.drop 1) (nv.drop 1) nn)).setPage parentPid
        (.internalP ((pk.set (pos + 1) ((nk.drop 1).headD 0)).set pos
          ((lk ++ [nk.headD 0]).headD 0)) pc)) := by
  simp only [minSize] at hborrow
  have h1 : ¬(pos = pk.length - 1) := by omega
  have h0 : ¬(pos = 0) := by omega
  have h2 : ¬((nk.length ⊔ pvK.length) - 1 < (t.leafMax + 1) / 2) := by
    simp only [Nat.max_def]
    split <;> omega
  have htie : ¬(nk.length ≤ pvK.length) := by omega
  have h3 : ¬(nk.length - 1 < (t.leafMax + 1) / 2) := by omega
  rw [← getD_eq_headD_drop nk 1 0]
  simp only [List.getD_eq_getElem?_getD] at hprev hnext
  simp [hpar, hleaf, hprev, hnext, h1, h0, h2, h3, htie, hpos0, ancestorUpdate,
    -getInternal?, -getLeaf?]

/-- C6: rebalancing after a leaf delete that under-fills the leaf.  The
donor is the sibling with the larger size, ties preferring the left; a
borrow from the right appends the right sibling's first entry to the leaf,
shifts the right sibling left and decrements its size, and overwrites the
parent's separator at the right sibling's slot with the right sibling's
new first key.  Concretely, from leaves `[1,2]` and `[3,4,5]` under root
separator 3 (size limits 4), `remove 1` borrows from the right and leaves
`[2,3]` and `[4,5]` with root key 4 at slot 1. -/
theorem C6_leaf_borrow :
    (∀ (t : BTree) (parentPid leafPid : Nat) (k : Int)
      (pk : List Int) (pc : List Nat) (lk lv : List Int) (ln : Option Nat)
      (nk nv : List Int) (nn : Option Nat),
      getInternal? t parentPid = some (pk, pc) →
      getLeaf? t leafPid = some (lk, lv, ln) →
      getLeaf? t (pc.getD 1 0) = some (nk, nv, nn) →
      2 ≤ pk.length →
      minSize t.leafMax + 1 ≤ nk.length →
      removeLeafRebalance t parentPid 0 leafPid k [] =
        some (((t.setPage leafPid (.leafP (lk ++ [nk.headD 0]) (lv ++ [nv.headD 0]) ln)).setPage
          (pc.getD 1 0) (.leafP (nk.drop 1) (nv.drop 1) nn)).setPage parentPid
          (.internalP (pk.set 1 ((nk.drop 1).headD 0)) pc))) ∧
    (∀ (t : BTree) (parentPid pos leafPid : Nat) (k : Int)
      (pk : List Int) (pc : List Nat) (lk lv : List Int) (ln : Option Nat)
      (pvK pvV : List Int) (pvN : Option Nat) (nk nv : List Int) (nn : Option Nat),
      getInternal? t parentPid = some (pk, pc) →
      getLeaf? t leafPid = some (lk, lv, ln) →
      getLeaf? t (pc.getD (pos - 1) 0) = some (pvK, pvV, pvN) →
      getLeaf? t (pc.getD (pos + 1) 0) = some (nk, nv, nn) →
      0 < pos → pos < pk.length - 1 →
      nk.length ≤ pvK.length →
      minSize t.leafMax + 1 ≤ pvK.length →
      removeLeafRebalance t parentPid pos leafPid k [] =
        some (((t.setPage leafPid (.leafP
            (stealPrevLeafArr (pvK.getD (pvK.length - 1) 0) 0 lk)
            (stealPrevLeafArr (pvV.getD (pvV.length - 1) 0) 0 lv) ln)).setPage
          (pc.getD (pos - 1) 0) (.leafP pvK.dropLast pvV.dropLast pvN)).setPage parentPid
          (.internalP (pk.set pos (pvK.getD (pvK.length - 1) 0)) pc))) ∧
    (∀ (t : BTree) (parentPid pos leafPid : Nat) (k : Int)
      (pk : List Int) (pc : List Nat) (lk lv : List Int) (ln : Option Nat)
      (pvK pvV : List Int) (pvN : Option Nat) (nk nv : List Int) (nn : Option Nat),
      getInternal? t parentPid = some (pk, pc) →
      getLeaf? t leafPid = some (lk, lv, ln) →
      getLeaf? t (pc.getD (pos - 1) 0) = some (pvK, pvV, pvN) →
      getLeaf? t (pc.getD (pos + 1) 0) = some (nk, nv, nn) →
      0 < pos → pos < pk.length - 1 →
      pvK.length < nk.length →
      minSize t.leafMax + 1 ≤ nk.length →
      removeLeafRebalance t parentPid pos leafPid k [] =
        some (((t.setPage leafPid (.leafP (lk ++ [nk.headD 0]) (lv ++ [nv.headD 0]) ln)).setPage
          (pc.getD (pos + 1) 0) (.leafP (nk.drop 1) (nv.drop 1) nn)).setPage parentPid
          (.internalP ((pk.set (pos + 1) ((nk.drop 1).headD 0)).set pos
            ((lk ++ [nk.headD 0]).headD 0)) pc))) ∧
    applyOps scT0 [.ins 1 1, .ins 2 2, .ins 3 3, .ins 4 4, .ins 5 5] = some scT5 ∧
    borT0 = scT5 ∧
    remove borT0 1 = some borT1 ∧
    borT1 = ⟨4, 4, [.leafP [2, 3] [2, 3] (some 1), .leafP [4, 5] [4, 5] none,
                    .internalP [0, 4] [0, 1]], some 2⟩ := by
  refine ⟨?_, ?_, ?_, ?_, rfl, ?_, rfl⟩
  · intro t parentPid leafPid k pk pc lk lv ln nk nv nn h1 h2 h3 h4 h5
    exact c6_right_borrow t parentPid leafPid k pk pc lk lv ln nk nv nn h1 h2 h3 h4 h5
  · intro t parentPid pos leafPid k pk pc lk lv ln pvK pvV pvN nk nv nn h1 h2 h3 h4 h5 h6 h7 h8
    exact c6_donor_left t parentPid pos leafPid k pk pc lk lv ln pvK pvV pvN nk nv nn
      h1 h2 h3 h4 h5 h6 h7 h8
  · intro t parentPid pos leafPid k pk pc lk lv ln pvK pvV pvN nk nv nn h1 h2 h3 h4 h5 h6 h7 h8
    exact c6_donor_right t parentPid pos leafPid k pk pc lk lv ln pvK pvV pvN nk nv nn
      h1 h2 h3 h4 h5 h6 h7 h8
  · simp only [applyOps, scS0, scS1, scS2, scS3, scS4]
  · have h := borS0
    simp only [applyOp] at h
    exact h

/-- Witness for C6's right-borrow clause at the concrete scenario state
(the five-key tree with key 1 already deleted from its leaf). -/
theorem C6_leaf_borrow_witness :
    removeLeafRebalance (borT0.setPage 0 (.leafP [2] [2] (some 1))) 2 0 0 1 [] =
      some ((((borT0.setPage 0 (.leafP [2] [2] (some 1))).setPage 0
        (.leafP ([2] ++ [(3 : Int)]) ([2] ++ [(3 : Int)]) (some 1))).setPage 1
        (.leafP ([3, 4, 5].drop 1) ([3, 4, 5].drop 1) none)).setPage 2
        (.internalP ([0, 3].set 1 (([3, 4, 5].drop 1).headD 0)) [0, 1])) := by
  exact C6_leaf_borrow.1 (borT0.setPage 0 (.leafP [2] [2] (some 1))) 2 0 1
    [0, 3] [0, 1] [2] [2] (some 1) [3, 4, 5] [3, 4, 5] none
    (by simp [borT0]) (by simp [borT0]) (by simp [borT0]) (by norm_num)
    (by simp [borT0])




/-- Deleting the only key of a root leaf empties it and writes
`INVALID_PAGE_ID` into the header. -/
theorem c7_root_leaf_empty (t : BTree) (r : Nat) (k v : Int) (nx : Option Nat)
    (hroot : t.root = some r) (hpg : t.pages.get? r = some (.leafP [k] [v] nx))
    (hmin : 1 ≤ minSize t.leafMax) :
    remove t k = some { t with pages := t.pages.set r (.leafP [] [] nx), root := none } := by
  have hsl : searchLeaf t k r = some ([], r) := by
    rw [searchLeaf.eq_def, searchLeafAux.eq_def]
    simp only [hpg]
  simp only [minSize] at hmin
  have h0 : ¬((t.leafMax + 1) / 2 ≤ 0) := by omega
  rw [remove.eq_def, hroot]
  simp only [hsl, hpg]
  simp [h0]

/-- Base case of the merge cascade at the root: after the separator
deletion leaves a single child pointer and no keys, the header's root
becomes that child. -/
theorem c7_mergeup_collapse (t : BTree) (nodePid : Nat) (dk uk k : Int)
    (nk : List Int) (nc : List Nat) (i : Nat)
    (hpg : getInternal? t nodePid = some (nk, nc))
    (hidx : internalDeleteIdx nk dk = some i)
    (hone : (nk.eraseIdx i).length = 1) :
    mergeUp nodePid dk uk k t [] =
      some { t.setPage nodePid (.internalP (nk.eraseIdx i) (nc.eraseIdx i)) with
             root := some ((nc.eraseIdx i).headD 0) } := by
  rw [mergeUp.eq_def, mergeUpFrom.eq_def]
  simp only [hpg, hidx, hone]
  simp

/-- C7: root adjustment during delete.  If the root is a leaf and deleting
`k` empties it, the header root becomes `INVALID` (`none`); if the merge
cascade reaches an internal root whose size drops to 1 — one child pointer
and no separator keys — the header root becomes that child.  The `sc` run
shows both concretely: `remove 4` collapses the internal root (page 2,
keys `[_,6]`, children `[0,3]`) onto child 0, and the final `remove 7`
empties the root leaf and invalidates the header. -/
theorem C7_root_adjustment :
    (∀ (t : BTree) (r : Nat) (k v : Int) (nx : Option Nat),
      t.root = some r → t.pages.get? r = some (.leafP [k] [v] nx) →
      1 ≤ minSize t.leafMax →
      remove t k = some { t with pages := t.pages.set r (.leafP [] [] nx), root := none }) ∧
    (∀ (t : BTree) (nodePid : Nat) (dk uk k : Int) (nk : List Int) (nc : List Nat) (i : Nat),
      getInternal? t nodePid = some (nk, nc) → internalDeleteIdx nk dk = some i →
      (nk.eraseIdx i).length = 1 →
      mergeUp nodePid dk uk k t [] =
        some { t.setPage nodePid (.internalP (nk.eraseIdx i) (nc.eraseIdx i)) with
               root := some ((nc.eraseIdx i).headD 0) }) ∧
    applyOps scT0 scOps = some scT14 ∧
    scT10.root = some 2 ∧
    scT10.pages.get? 2 = some (.internalP [0, 6] [0, 3]) ∧
    remove scT10 4 = some scT11 ∧
    scT11.root = some 0 ∧
    scT13.root = some 0 ∧
    scT13.pages.get? 0 = some (.leafP [7] [7] none) ∧
    remove scT13 7 = some scT14 ∧
    scT14.root = none := by
  refine ⟨c7_root_leaf_empty, c7_mergeup_collapse, ?_, rfl, by simp [scT10], ?_, rfl, rfl,
    by simp [scT13], ?_, rfl⟩
  · simp only [scOps, applyOps, scS0, scS1, scS2, scS3, scS4, scS5, scS6, scS7, scS8,
      scS9, scS10, scS11, scS12, scS13]
  · have h := scS10
    simp only [applyOp] at h
    exact h
  · have h := scS13
    simp only [applyOp] at h
    exact h

/-- Witness for C7's two general clauses at concrete states. -/
theorem C7_root_adjustment_witness :
    remove (⟨4, 4, [.leafP [9] [9] none], some 0⟩ : BTree) 9 =
      some ⟨4, 4, [.leafP [] [] none], none⟩ ∧
    mergeUp 0 5 0 0 (⟨4, 4, [.internalP [0, 5] [10, 11]], some 0⟩ : BTree) [] =
      some ⟨4, 4, [.internalP [0] [10]], some 10⟩ := by
  constructor
  · have h := C7_root_adjustment.1 ⟨4, 4, [.leafP [9] [9] none], some 0⟩ 0 9 9 none rfl rfl
      (by norm_num [minSize])
    exact h
  · have h := C7_root_adjustment.2.1 ⟨4, 4, [.internalP [0, 5] [10, 11]], some 0⟩ 0 5 0 0
      [0, 5] [10, 11] 1 (by simp) (by simp [internalDeleteIdx]) (by simp)
    exact h




/-- Membership through `insAt`. -/
theorem mem_insAt (a b : α) : ∀ (n : Nat) (l : List α), a ∈ insAt n b l ↔ a = b ∨ a ∈ l := by
  intro n l
  induction l generalizing n with
  | nil => simp [insAt]
  | cons x xs ih =>
    cases n with
    | zero => simp [insAt]
    | succ n =>
      simp only [insAt, List.mem_cons, ih n]
      tauto

/-- Pushing `insAt` below a cons cell. -/
theorem insAt_one_add (b : α) (n : Nat) (x : α) (xs : List α) :
    insAt (1 + n) b (x :: xs) = x :: insAt n b xs := by
  rw [Nat.add_comm]
  rfl

/-- Reading `getD` at an in-range index yields a member of the list. -/
theorem getD_mem_of_lt (L : List Int) : ∀ (j : Nat), j < L.length → L.getD j 0 ∈ L := by
  induction L with
  | nil => intro j hj; simp at hj
  | cons x xs ih =>
    intro j hj
    cases j with
    | zero => simp
    | succ j => simp only [List.getD_cons_succ, List.mem_cons]; right; exact ih j (by simpa using hj)

/-- In a strictly sorted list, the element at `j` does not recur earlier. -/
theorem sorted_getD_notMem_take (L : List Int) (h : L.Pairwise (· < ·)) :
    ∀ (j : Nat), j < L.length → L.getD j 0 ∉ L.take j := by
  induction L with
  | nil => intro j hj; simp at hj
  | cons x xs ih =>
    intro j hj
    cases j with
    | zero => simp
    | succ j =>
      simp only [List.getD_cons_succ, List.take_succ_cons, List.mem_cons]
      push_neg
      have hmem : xs.getD j 0 ∈ xs := getD_mem_of_lt xs j (by simpa using hj)
      constructor
      · have := (List.pairwise_cons.mp h).1 _ hmem
        omega
      · exact ih (List.pairwise_cons.mp h).2 j (by simpa using hj)

/-- In a strictly sorted list, the element at `j` does not recur later. -/
theorem sorted_getD_notMem_drop (L : List Int) (h : L.Pairwise (· < ·)) :
    ∀ (j : Nat), j < L.length → L.getD j 0 ∉ L.drop (j + 1) := by
  induction L with
  | nil => intro j hj; simp at hj
  | cons x xs ih =>
    intro j hj
    cases j with
    | zero =>
      simp only [List.getD_cons_zero, List.drop_succ_cons, List.drop_zero]
      intro hmem
      have := (List.pairwise_cons.mp h).1 _ hmem
      omega
    | succ j =>
      simp only [List.getD_cons_succ, List.drop_succ_cons]
      exact ih (List.pairwise_cons.mp h).2 j (by simpa using hj)

/-- Normal form of the internal split when the incoming separator is at
least the key at the upper middle: split at `(m+1)/2`, promote the node's
key there, its child becomes the right node's child 0. -/
theorem internalSplitParts_big (keys : List Int) (children : List Nat) (ik : Int) (iv : Nat)
    (hns : ¬(ik < keys.getD ((keys.length + 1) / 2) 0)) :
    internalSplitParts keys children ik iv =
      ⟨keys.take ((keys.length + 1) / 2), children.take ((keys.length + 1) / 2),
       0 :: keys.drop ((keys.length + 1) / 2 + 1),
       children.getD ((keys.length + 1) / 2) 0 :: children.drop ((keys.length + 1) / 2 + 1),
       keys.getD ((keys.length + 1) / 2) 0, ik, iv, false⟩ := by
  have hns2 : ¬(ik < keys.getD ((keys.length + 1) / 2) 0 ∧
      keys.getD ((keys.length + 1) / 2) 0 ≤ ik) := fun h => hns h.1
  simp only [internalSplitParts, if_neg hns, if_neg hns2, decide_eq_false hns]

/-- Normal form of the internal split when the incoming separator is below
the key at the lower middle: split at `m/2`, promote the node's key there,
the pending insertion goes to the left node. -/
theorem internalSplitParts_small (keys : List Int) (children : List Nat) (ik : Int) (iv : Nat)
    (hs : ik < keys.getD ((keys.length + 1) / 2) 0)
    (hlt : ik < keys.getD (keys.length / 2) 0) :
    internalSplitParts keys children ik iv =
      ⟨keys.take (keys.length / 2), children.take (keys.length / 2),
       0 :: keys.drop (keys.length / 2 + 1),
       children.getD (keys.length / 2) 0 :: children.drop (keys.length / 2 + 1),
       keys.getD (keys.length / 2) 0, ik, iv, true⟩ := by
  have hns2 : ¬(ik < keys.getD ((keys.length + 1) / 2) 0 ∧
      keys.getD (keys.length / 2) 0 ≤ ik) := fun h => absurd hlt (not_lt.mpr h.2)
  simp only [internalSplitParts, if_pos hs, if_neg hns2, decide_eq_true hs]

/-- Normal form of the special swap: the incoming separator lies between
the two middles, so it is promoted itself; the incoming child pointer
becomes the right node's child 0 and the node's middle key/child pair is
what remains to be inserted (into the left node). -/
theorem internalSplitParts_special (keys : List Int) (children : List Nat) (ik : Int) (iv : Nat)
    (hs : ik < keys.getD ((keys.length + 1) / 2) 0)
    (hge : keys.getD (keys.length / 2) 0 ≤ ik) :
    internalSplitParts keys children ik iv =
      ⟨keys.take (keys.length / 2), children.take (keys.length / 2),
       0 :: keys.drop (keys.length / 2 + 1),
       iv :: children.drop (keys.length / 2 + 1),
       ik, keys.getD (keys.length / 2) 0, children.getD (keys.length / 2) 0, true⟩ := by
  have hsp : ik < keys.getD ((keys.length + 1) / 2) 0 ∧
      keys.getD (keys.length / 2) 0 ≤ ik := ⟨hs, hge⟩
  simp only [internalSplitParts, if_pos hs, if_pos hsp, decide_eq_true hs]

/-- After the non-special split with the pending pair inserted into the
right node, the promoted separator is in neither node's key area. -/
theorem c5_sep_moved_big (keys : List Int) (children : List Nat) (ik : Int) (iv : Nat)
    (h2 : 2 ≤ keys.length)
    (hsort : (keys.drop 1).Pairwise (· < ·))
    (hik : ik ∉ keys.drop 1)
    (hns : ¬(ik < keys.getD ((keys.length + 1) / 2) 0)) :
    (internalSplitParts keys children ik iv).promoted ∉
      (internalSplitParts keys children ik iv).leftKeys.drop 1 ∧
    (internalSplitParts keys children ik iv).promoted ∉
      ((internalInsertKV (internalSplitParts keys children ik iv).rightKeys
        (internalSplitParts keys children ik iv).rightChildren
        (internalSplitParts keys children ik iv).insKey
        (internalSplitParts keys children ik iv).insVal).1).drop 1 := by
  rw [internalSplitParts_big keys children ik iv hns]
  cases keys with
  | nil => simp at h2
  | cons x xs =>
    simp only [List.drop_succ_cons, List.drop_zero] at hsort hik
    obtain ⟨j, hj⟩ : ∃ j, ((x :: xs).length + 1) / 2 = j + 1 :=
      ⟨((x :: xs).length + 1) / 2 - 1, by simp; omega⟩
    have hjlen : j < xs.length := by
      have : (x :: xs).length = xs.length + 1 := by simp
      omega
    rw [hj]
    constructor
    · show xs.getD j 0 ∉ xs.take j
      exact sorted_getD_notMem_take xs hsort j hjlen
    · simp only [internalInsertKV, internalInsertPos, List.length_cons,
        List.drop_succ_cons, List.drop_one, List.tail_cons]
      rw [if_neg (by simp)]
      rw [insAt_one_add]
      show xs.getD j 0 ∉ insAt ((List.takeWhile (fun x => decide (x < ik)) (xs.drop (j + 1))).length)
        ik (xs.drop (j + 1))
      rw [mem_insAt]
      push_neg
      refine ⟨?_, sorted_getD_notMem_drop xs hsort j hjlen⟩
      intro heq
      exact hik (heq ▸ getD_mem_of_lt xs j hjlen)

/-- After the plain lower-middle split with the pending pair inserted into
the left node, the promoted separator is in neither node's key area. -/
theorem c5_sep_moved_small (keys : List Int) (children : List Nat) (ik : Int) (iv : Nat)
    (h2 : 2 ≤ keys.length)
    (hsort : (keys.drop 1).Pairwise (· < ·))
    (hik : ik ∉ keys.drop 1)
    (hs : ik < keys.getD ((keys.length + 1) / 2) 0)
    (hlt : ik < keys.getD (keys.length / 2) 0) :
    (internalSplitParts keys children ik iv).promoted ∉
      ((internalInsertKV (internalSplitParts keys children ik iv).leftKeys
        (internalSplitParts keys children ik iv).leftChildren
        (internalSplitParts keys children ik iv).insKey
        (internalSplitParts keys children ik iv).insVal).1).drop 1 ∧
    (internalSplitParts keys children ik iv).promoted ∉
      (internalSplitParts keys children ik iv).rightKeys.drop 1 := by
  rw [internalSplitParts_small keys children ik iv hs hlt]
  cases keys with
  | nil => simp at h2
  | cons x xs =>
    simp only [List.drop_succ_cons, List.drop_zero] at hsort hik
    simp only [List.length_cons] at h2
    obtain ⟨j, hj⟩ : ∃ j, (x :: xs).length / 2 = j + 1 :=
      ⟨(x :: xs).length / 2 - 1, by simp; omega⟩
    have hjlen : j < xs.length := by
      have : (x :: xs).length = xs.length + 1 := by simp
      omega
    rw [hj]
    constructor
    · simp only [internalInsertKV, internalInsertPos]
      rw [if_neg (by simp)]
      show xs.getD j 0 ∉ (insAt (1 + (List.takeWhile (fun a => decide (a < ik))
        ((x :: xs.take j).drop 1)).length) ik ((x :: xs).take (j + 1))).drop 1
      rw [show (x :: xs).take (j + 1) = x :: xs.take j from rfl, insAt_one_add]
      show xs.getD j 0 ∉ insAt ((List.takeWhile (fun a => decide (a < ik))
        ((x :: xs.take j).drop 1)).length) ik (xs.take j)
      rw [mem_insAt]
      push_neg
      refine ⟨?_, sorted_getD_notMem_take xs hsort j hjlen⟩
      intro heq
      exact hik (heq ▸ getD_mem_of_lt xs j hjlen)
    · show xs.getD j 0 ∉ xs.drop (j + 1)
      exact sorted_getD_notMem_drop xs hsort j hjlen

/-- After the special swap split, the promoted (incoming) separator is in
neither node's key area: the left node only gains the node's own middle
key. -/
theorem c5_sep_moved_special (keys : List Int) (children : List Nat) (ik : Int) (iv : Nat)
    (h2 : 2 ≤ keys.length)
    (hsort : (keys.drop 1).Pairwise (· < ·))
    (hik : ik ∉ keys.drop 1)
    (hs : ik < keys.getD ((keys.length + 1) / 2) 0)
    (hge : keys.getD (keys.length / 2) 0 ≤ ik) :
    (internalSplitParts keys children ik iv).promoted ∉
      ((internalInsertKV (internalSplitParts keys children ik iv).leftKeys
        (internalSplitParts keys children ik iv).leftChildren
        (internalSplitParts keys children ik iv).insKey
        (internalSplitParts keys children ik iv).insVal).1).drop 1 ∧
    (internalSplitParts keys children ik iv).promoted ∉
      (internalSplitParts keys children ik iv).rightKeys.drop 1 := by
  rw [internalSplitParts_special keys children ik iv hs hge]
  cases keys with
  | nil => simp at h2
  | cons x xs =>
    simp only [List.drop_succ_cons, List.drop_zero] at hsort hik
    simp only [List.length_cons] at h2
    obtain ⟨j, hj⟩ : ∃ j, (x :: xs).length / 2 = j + 1 :=
      ⟨(x :: xs).length / 2 - 1, by simp; omega⟩
    rw [hj]
    constructor
    · simp only [internalInsertKV, internalInsertPos]
      rw [if_neg (by simp)]
      show ik ∉ (insAt (1 + (List.takeWhile (fun a => decide (a < xs.getD j 0))
        ((x :: xs.take j).drop 1)).length) (xs.getD j 0) ((x :: xs).take (j + 1))).drop 1
      rw [show (x :: xs).take (j + 1) = x :: xs.take j from rfl, insAt_one_add]
      show ik ∉ insAt ((List.takeWhile (fun a => decide (a < xs.getD j 0))
        ((x :: xs.take j).drop 1)).length) (xs.getD j 0) (xs.take j)
      rw [mem_insAt]
      push_neg
      have hjlen : j < xs.length := by
        have : (x :: xs).length = xs.length + 1 := by simp
        omega
      refine ⟨?_, fun hmem => hik (List.take_subset j xs hmem)⟩
      intro heq
      exact hik (heq ▸ getD_mem_of_lt xs j hjlen)
    · show ik ∉ xs.drop (j + 1)
      exact fun hmem => hik (List.drop_subset (j + 1) xs hmem)

/-- Counterexample to C5 as literally stated: at leaf limit 4 and internal
limit 5, thirteen legal inserts produce a full root internal node with keys
`[_,30,50,70,90]` and children `[0,1,3,4,5]`; inserting 56 then splits that
node in the "special" case (the freshly promoted leaf separator 54 falls
between the two middle keys 50 and 70).  The incoming key 54 itself is
promoted to the new root - not a key of the overfull node - and the right
sibling's child 0 is the incoming child page 6, not `children[3] = 4` as
the claim's `child[m/2]` reading requires; the old middle key 50 is kept
in the left node, and the promoted 54 appears in neither sibling's key
area while 70 remains in the right one. -/
theorem C5_internal_split_counterexample :
    splT0 = BTree.openTree 4 5 ∧
    applyOps splT0 splOps = some splT14 ∧
    getInternal? splT13 2 = some ([0, 30, 50, 70, 90], [0, 1, 3, 4, 5]) ∧
    insert splT13 56 56 = some (true, splT14) ∧
    getInternal? splT14 7 = some ([0, 70, 90], [6, 4, 5]) ∧
    getInternal? splT14 8 = some ([0, 54], [2, 7]) ∧
    ¬(([6, 4, 5] : List Nat).headD 0 = ([0, 1, 3, 4, 5] : List Nat).getD 3 0) ∧
    (70 : Int) ∈ ([0, 70, 90] : List Int).drop 1 := by
  refine ⟨rfl, ?_, by simp [splT13], ?_, by simp [splT14], by simp [splT14],
    by norm_num, by norm_num⟩
  · simp only [splOps, applyOps, splS0, splS1, splS2, splS3, splS4, splS5, splS6,
      splS7, splS8, splS9, splS10, splS11, splS12, splS13]
  · simp [splT13, splT14, List.findIdx?, List.eraseIdx, List.dropLast]

/-- C5 (amended): the internal split viewed through `internalSplitParts`,
for a node with strictly sorted live keys (slot 0 is the sentinel) and an
incoming separator `ik` with carried child `iv` not already present.
Case 1 (`ik` at least the upper-middle key): split at `mid = (m+1)/2`; keys
`[mid+1, m)` and children `[mid+1, m]` move to the right node, whose child 0
is `children[mid]`; `keys[mid]` is promoted and afterwards appears in
neither node's key area (the pending `ik` goes right).
Case 2 (`ik` below the lower-middle key): the same with `mid = m/2` and the
pending `ik` going left.
Case 3 (the special swap, `keys[m/2] <= ik <` upper-middle key): the split
index is `m/2`, but the INCOMING key `ik` is promoted and the incoming
child `iv` - not `children[mid]` - becomes the right node's child 0, while
the node's own middle pair `(keys[mid], children[mid])` is re-inserted into
the left node; again the promoted key lands in neither node's key area. -/
theorem C5_internal_split_promotion (keys : List Int) (children : List Nat) (ik : Int) (iv : Nat)
    (h2 : 2 ≤ keys.length)
    (hsort : (keys.drop 1).Pairwise (· < ·))
    (hik : ik ∉ keys.drop 1) :
    (¬(ik < keys.getD ((keys.length + 1) / 2) 0) →
      internalSplitParts keys children ik iv =
        ⟨keys.take ((keys.length + 1) / 2), children.take ((keys.length + 1) / 2),
         0 :: keys.drop ((keys.length + 1) / 2 + 1),
         children.getD ((keys.length + 1) / 2) 0 :: children.drop ((keys.length + 1) / 2 + 1),
         keys.getD ((keys.length + 1) / 2) 0, ik, iv, false⟩ ∧
      (internalSplitParts keys children ik iv).promoted ∉
        (internalSplitParts keys children ik iv).leftKeys.drop 1 ∧
      (internalSplitParts keys children ik iv).promoted ∉
        ((internalInsertKV (internalSplitParts keys children ik iv).rightKeys
          (internalSplitParts keys children ik iv).rightChildren
          (internalSplitParts keys children ik iv).insKey
          (internalSplitParts keys children ik iv).insVal).1).drop 1) ∧
    (ik < keys.getD ((keys.length + 1) / 2) 0 → ik < keys.getD (keys.length / 2) 0 →
      internalSplitParts keys children ik iv =
        ⟨keys.take (keys.length / 2), children.take (keys.length / 2),
         0 :: keys.drop (keys.length / 2 + 1),
         children.getD (keys.length / 2) 0 :: children.drop (keys.length / 2 + 1),
         keys.getD (keys.length / 2) 0, ik, iv, true⟩ ∧
      (internalSplitParts keys children ik iv).promoted ∉
        ((internalInsertKV (internalSplitParts keys children ik iv).leftKeys
          (internalSplitParts keys children ik iv).leftChildren
          (internalSplitParts keys children ik iv).insKey
          (internalSplitParts keys children ik iv).insVal).1).drop 1 ∧
      (internalSplitParts keys children ik iv).promoted ∉
        (internalSplitParts keys children ik iv).rightKeys.drop 1) ∧
    (ik < keys.getD ((keys.length + 1) / 2) 0 → keys.getD (keys.length / 2) 0 ≤ ik →
      internalSplitParts keys children ik iv =
        ⟨keys.take (keys.length / 2), children.take (keys.length / 2),
         0 :: keys.drop (keys.length / 2 + 1),
         iv :: children.drop (keys.length / 2 + 1),
         ik, keys.getD (keys.length / 2) 0, children.getD (keys.length / 2) 0, true⟩ ∧
      (internalSplitParts keys children ik iv).promoted ∉
        ((internalInsertKV (internalSplitParts keys children ik iv).leftKeys
          (internalSplitParts keys children ik iv).leftChildren
          (internalSplitParts keys children ik iv).insKey
          (internalSplitParts keys children ik iv).insVal).1).drop 1 ∧
      (internalSplitParts keys children ik iv).promoted ∉
        (internalSplitParts keys children ik iv).rightKeys.drop 1) := by
  refine ⟨fun hns => ?_, fun hs hlt => ?_, fun hs hge => ?_⟩
  · obtain ⟨ha, hb⟩ := c5_sep_moved_big keys children ik iv h2 hsort hik hns
    exact ⟨internalSplitParts_big keys children ik iv hns, ha, hb⟩
  · obtain ⟨ha, hb⟩ := c5_sep_moved_small keys children ik iv h2 hsort hik hs hlt
    exact ⟨internalSplitParts_small keys children ik iv hs hlt, ha, hb⟩
  · obtain ⟨ha, hb⟩ := c5_sep_moved_special keys children ik iv h2 hsort hik hs hge
    exact ⟨internalSplitParts_special keys children ik iv hs hge, ha, hb⟩

/-- Witness for C5's special-swap clause at the counterexample's node. -/
theorem C5_internal_split_promotion_witness :
    internalSplitParts [0, 30, 50, 70, 90] [0, 1, 3, 4, 5] 54 6 =
      ⟨[0, 30], [0, 1], [0, 70, 90], [6, 4, 5], 54, 50, 3, true⟩ ∧
    (54 : Int) ∉ (((internalInsertKV [0, 30] [0, 1] 50 3).1 : List Int)).drop 1 ∧
    (54 : Int) ∉ ([0, 70, 90] : List Int).drop 1 := by
  have h := (C5_internal_split_promotion [0, 30, 50, 70, 90] [0, 1, 3, 4, 5] 54 6
    (by norm_num) (by decide) (by decide)).2.2 (by decide) (by decide)
  exact ⟨h.1, h.2.1, h.2.2⟩

/-- C3, refuted on the code: from a freshly opened tree with both size
limits 6, the listed ten operations are legal inserts of 0..7 followed by
`remove 7` and `remove 6`; the second removal under-fills the right leaf
and the borrow-from-left path's ascending in-place shift
(`for (j = 1; j < size; j++) A[j] = A[j-1]`) rewrites it to `[3, 4, 4]`,
duplicating 4 and silently losing 5.  On the resulting state `bugT10`,
`remove 4` completes (deleting one copy, merging and collapsing the root)
and yet `get 4` still succeeds — the claim requires it to fail. -/
theorem C3_remove_then_get_violation :
    bugT0 = BTree.openTree 6 6 ∧
    applyOps bugT0 [.ins 1 1, .ins 2 2, .ins 3 3, .ins 4 4, .ins 5 5, .ins 6 6,
      .ins 7 7, .ins 0 0, .rem 7, .rem 6] = some bugT10 ∧
    getValue bugT10 4 = [4] ∧
    remove bugT10 4 = some bugT11 ∧
    getValue bugT11 4 = [4] := by
  refine ⟨rfl, ?_, by simp [bugT10], ?_, by simp [bugT11]⟩
  · simp only [applyOps, bugS0, bugS1, bugS2, bugS3, bugS4, bugS5, bugS6, bugS7,
      bugS8, bugS9]
  · have h := bugS10
    simp only [applyOp] at h
    exact h

/-- C8, refuted on the code: continuing the corrupted `bug` run to the end
removes every physically present key, so `IsEmpty` reports `true` — yet
key 5 was inserted (it was retrievable after the eighth operation) and
never removed, so the claim requires `is_empty` to be `false`.  Key 5 was
silently destroyed by the corrupting borrow shift. -/
theorem C8_isempty_violation :
    bugT0 = BTree.openTree 6 6 ∧
    applyOps bugT0 bugOps = some bugT16 ∧
    isEmpty bugT16 = some true ∧
    Op.ins 5 5 ∈ bugOps ∧
    ¬(Op.rem 5 ∈ bugOps) ∧
    getValue bugT8 5 = [5] ∧
    getValue bugT16 5 = [] := by
  refine ⟨rfl, ?_, by simp [bugT16], by simp [bugOps], by simp [bugOps],
    by simp [bugT8], by simp [bugT16]⟩
  simp only [bugOps, applyOps, bugS0, bugS1, bugS2, bugS3, bugS4, bugS5, bugS6, bugS7,
    bugS8, bugS9, bugS10, bugS11, bugS12, bugS13, bugS14, bugS15]

/-- C1, refuted on the code: from a freshly opened tree with leaf limit 3
and internal limit 5, the 21-op prefix of `corOps` (legal point inserts
and removes, each of whose descents and sibling fetches touches only
pages whose guards are not already held, so every operation completes)
drives the tree into a state `corT21` whose pages carry duplicated
separators and junk keys — fallout of the ascending borrow shifts of
`Remove`.  There `get 24` reports the key absent and `insert (24, 24)`
returns `true`, but the split promotes a separator over the corrupted
key list so that the subsequent `get 24` is routed away from 24's leaf
and still returns nothing — the claim requires exactly `[24]`. -/
theorem C1_insert_get_violation :
    corT0 = BTree.openTree 3 5 ∧
    applyOps corT0 corOps = some corT22 ∧
    getValue corT21 24 = [] ∧
    insert corT21 24 24 = some (true, corT22) ∧
    getValue corT22 24 = [] := by
  refine ⟨rfl, ?_, by simp [corT21], ?_, by simp [corT22]⟩
  · simp only [corOps, applyOps, corS0, corS1, corS2, corS3, corS4, corS5, corS6,
      corS7, corS8, corS9, corS10, corS11, corS12, corS13, corS14, corS15, corS16,
      corS17, corS18, corS19, corS20, corS21]
  · simp [corT21, corT22, List.findIdx?, List.eraseIdx, List.dropLast]

end DbLab
